import Mathlib

/-! CH423 I2C GPIO expander driver (`components/ch423/ch423.cpp`).

A shallow embedding of the driver's controller (`CH423Component`) and of the bus it talks to.
Every method becomes a function on an explicit controller state; the state also carries the
state of the bus and a chronological log of the bus transactions issued so far, so that claims
about bus traffic are claims about that log.

Machine integers are natural numbers, truncated with `% 2 ^ w` wherever the C++ code stores into a
field or passes a `uint8_t` argument.
-/

namespace CH423

/-! ## Register and mode constants (`ch423.cpp`, lines 7-13) -/

def CH423_REG_MODE : Nat := 0x24
/-- Mode bit: enables output mode on pins 0-7. -/
def CH423_MODE_OUTPUT : Nat := 0x01
/-- Mode bit: enables open drain mode on the upper pins. -/
def CH423_MODE_OPEN_DRAIN : Nat := 0x04
/-- Read register for the input bits. -/
def CH423_REG_IN : Nat := 0x26
/-- Write register for output bits 0-7. -/
def CH423_REG_OUT : Nat := 0x38
/-- Write register for the topmost output byte (`output_bits_ >> 16`). -/
def CH423_REG_OUT_UPPER : Nat := 0x23
/-- Write register for output bits 8-15. -/
def CH423_REG_OUT_UPPER_l : Nat := 0x22

/-- Modelled from the spec: `gpio::Flags` is declared by the host framework, outside the sources;
the spec names the capability flag OUTPUT, and the mask is the framework's `FLAG_OUTPUT`. -/
def FLAG_OUTPUT : Nat := 0x02
/-- Modelled from the spec: `gpio::Flags` is declared by the host framework, outside the sources;
the spec names the capability flag OPEN_DRAIN, and the mask is the framework's
`FLAG_OPEN_DRAIN`. -/
def FLAG_OPEN_DRAIN : Nat := 0x04

/-! ## The bus -/

/-- The transport's result code, `i2c::ErrorCode`; `ERROR_OK` is the only success code. -/
abbrev ErrorCode := Nat

def ERROR_OK : ErrorCode := 0

/-- One bus transaction as seen on the wire: a one-byte write to, or a one-byte read from, a
register address. -/
inductive Txn where
  | write (reg value : Nat)
  | read (reg : Nat)
  deriving DecidableEq

/-- The external bus (`bus_`): an arbitrary state machine over `β`. `write b reg v` and
`read b reg` give the result code, the next bus state and, for a read, the byte delivered. -/
structure I2CBus (β : Type) where
  write : β → Nat → Nat → ErrorCode × β
  read : β → Nat → ErrorCode × Nat × β

/-- Modelled from the spec: the header `ch423.h`, which declares the integer types of the fields
`pin_read_flags_`, `input_bits_` and `output_bits_`, is not among the sources. Their bit widths
(at most 32, the width of `int`) are parameters of the model; the spec asks for one read flag per
pin (16 pins), an 8 to 16 bit input cache and a 24 bit output cache. -/
structure Widths where
  flags : Nat
  input : Nat
  output : Nat
  deriving DecidableEq

/-- The controller: the fields of `CH423Component`, the two status flags it uses from the
framework's `Component` base (`is_failed()`, `status_has_warning()`), the state of the bus
behind `bus_`, and the log of the transactions issued so far (oldest first). -/
structure CH423Component (β : Type) where
  mode_value_ : Nat
  output_bits_ : Nat
  input_bits_ : Nat
  pin_read_flags_ : Nat
  failed : Bool
  warning : Bool
  bus : β
  trace : List Txn

variable {β : Type}

/-- The framework's `Component::mark_failed()`. -/
def mark_failed (s : CH423Component β) : CH423Component β :=
  { s with failed := true }

/-- The framework's `Component::status_set_warning(...)` (the message is only logged). -/
def status_set_warning (s : CH423Component β) : CH423Component β :=
  { s with warning := true }

/-- The framework's `Component::status_clear_warning()`. -/
def status_clear_warning (s : CH423Component β) : CH423Component β :=
  { s with warning := false }

/-- The C++ `~m` on a non-negative `int` mask, as a 32-bit pattern. -/
def bitNot (m : Nat) : Nat := 0xFFFFFFFF - m

/-- `CH423Component::write_reg_(uint8_t reg, uint8_t value)`. -/
def write_reg_ (T : I2CBus β) (reg value : Nat) (s : CH423Component β) :
    Bool × CH423Component β :=
  let r := T.write s.bus (reg % 256) (value % 256)
  let s1 := { s with bus := r.2, trace := s.trace ++ [Txn.write (reg % 256) (value % 256)] }
  if r.1 ≠ ERROR_OK then (false, status_set_warning s1)
  else (true, status_clear_warning s1)

/-- `CH423Component::read_reg_(uint8_t reg)`. -/
def read_reg_ (T : I2CBus β) (reg : Nat) (s : CH423Component β) : Nat × CH423Component β :=
  let r := T.read s.bus (reg % 256)
  let s1 := { s with bus := r.2.2, trace := s.trace ++ [Txn.read (reg % 256)] }
  if r.1 ≠ ERROR_OK then (0, status_set_warning s1)
  else (r.2.1 % 256, status_clear_warning s1)

/-- `CH423Component::set_mode_(uint8_t mode)`. -/
def set_mode_ (T : I2CBus β) (mode : Nat) (s : CH423Component β) : Bool × CH423Component β :=
  write_reg_ T CH423_REG_MODE mode s

/-- `CH423Component::write_outputs_()`; the `&&` chain stops at the first write that fails. -/
def write_outputs_ (T : I2CBus β) (s : CH423Component β) : Bool × CH423Component β :=
  let r1 := write_reg_ T CH423_REG_OUT (s.output_bits_ % 256) s
  if r1.1 then
    let r2 := write_reg_ T CH423_REG_OUT_UPPER_l ((r1.2.output_bits_ >>> 8) % 256) r1.2
    if r2.1 then
      write_reg_ T CH423_REG_OUT_UPPER ((r2.2.output_bits_ >>> 16) % 256) r2.2
    else (false, r2.2)
  else (false, r1.2)

/-- `CH423Component::read_inputs_()`. -/
def read_inputs_ (W : Widths) (T : I2CBus β) (s : CH423Component β) :
    Bool × CH423Component β :=
  if s.failed then (false, s)
  else
    let r :=
      if s.mode_value_ &&& CH423_MODE_OUTPUT ≠ 0 then
        let s1 := (set_mode_ T (s.mode_value_ &&& bitNot CH423_MODE_OUTPUT) s).2
        let r2 := read_reg_ T CH423_REG_IN s1
        (r2.1, (set_mode_ T r2.2.mode_value_ r2.2).2)
      else read_reg_ T CH423_REG_IN s
    (true, status_clear_warning { r.2 with input_bits_ := r.1 % 2 ^ W.input })

/-- `CH423Component::setup()`. -/
def setup (W : Widths) (T : I2CBus β) (s : CH423Component β) : CH423Component β :=
  let s1 := (write_outputs_ T s).2
  let r2 := set_mode_ T s1.mode_value_ s1
  if r2.1 then
    let r3 := read_inputs_ W T r2.2
    if r3.1 then r3.2 else mark_failed r3.2
  else mark_failed r2.2

/-- `CH423Component::loop()`. -/
def loop (s : CH423Component β) : CH423Component β :=
  { s with pin_read_flags_ := 0 }

/-- `CH423Component::pin_mode(uint8_t pin, gpio::Flags flags)`. -/
def pin_mode (pin flags : Nat) (s : CH423Component β) : CH423Component β :=
  if pin < 8 then
    if flags &&& FLAG_OUTPUT ≠ 0 then
      { s with mode_value_ := (s.mode_value_ ||| CH423_MODE_OUTPUT) % 256 }
    else s
  else
    if flags &&& FLAG_OPEN_DRAIN ≠ 0 then
      { s with mode_value_ := (s.mode_value_ ||| CH423_MODE_OPEN_DRAIN) % 256 }
    else s

/-- `CH423Component::digital_read(uint8_t pin)`. -/
def digital_read (W : Widths) (T : I2CBus β) (pin : Nat) (s : CH423Component β) :
    Bool × CH423Component β :=
  let s1 :=
    if s.pin_read_flags_ = 0 ∨ s.pin_read_flags_ &&& (1 <<< pin) ≠ 0 then
      (read_inputs_ W T s).2
    else s
  let s2 := { s1 with pin_read_flags_ := (s1.pin_read_flags_ ||| (1 <<< pin)) % 2 ^ W.flags }
  (decide (s2.input_bits_ &&& (1 <<< pin) ≠ 0), s2)

/-- `CH423Component::digital_write(uint8_t pin, bool value)`. -/
def digital_write (W : Widths) (T : I2CBus β) (pin : Nat) (value : Bool)
    (s : CH423Component β) : CH423Component β :=
  let s1 :=
    if value then
      { s with output_bits_ := (s.output_bits_ ||| (1 <<< pin)) % 2 ^ W.output }
    else
      { s with output_bits_ := (s.output_bits_ &&& bitNot (1 <<< pin)) % 2 ^ W.output }
  (write_outputs_ T s1).2

/-! ## Call sequences and observations on the log -/

/-- A call made on the controller by the host or by a pin. -/
inductive Op where
  | setup
  | loop
  | pin_mode (pin flags : Nat)
  | digital_read (pin : Nat)
  | digital_write (pin : Nat) (value : Bool)
  | read_inputs
  deriving DecidableEq

/-- The controller after one call (a returned value is dropped). -/
def Op.apply (W : Widths) (T : I2CBus β) : Op → CH423Component β → CH423Component β
  | Op.setup, s => CH423.setup W T s
  | Op.loop, s => CH423.loop s
  | Op.pin_mode pin flags, s => CH423.pin_mode pin flags s
  | Op.digital_read pin, s => (CH423.digital_read W T pin s).2
  | Op.digital_write pin value, s => CH423.digital_write W T pin value s
  | Op.read_inputs, s => (read_inputs_ W T s).2

/-- The controller after a sequence of calls, made from left to right. -/
def run (W : Widths) (T : I2CBus β) (ops : List Op) (s : CH423Component β) :
    CH423Component β :=
  ops.foldl (fun st o => o.apply W T st) s

/-- The controller after `digital_read` has been called once on each pin of the list. -/
def read_pins (W : Widths) (T : I2CBus β) (pins : List Nat) (s : CH423Component β) :
    CH423Component β :=
  pins.foldl (fun st p => (digital_read W T p st).2) s

/-- The number of read transactions on the input register in a log. -/
def inputReads (l : List Txn) : Nat :=
  l.count (Txn.read CH423_REG_IN)

/-! ## Concrete buses and states used to evaluate the model -/

/-- Field widths as the spec describes them: 16 read flags, 16 input bits, a 32-bit word for
the 24 output bits. -/
def W0 : Widths := ⟨16, 16, 32⟩

/-- A bus on which every transaction succeeds and every read delivers `v`. -/
def okBus (v : Nat) : I2CBus Unit where
  write := fun _ _ _ => (ERROR_OK, ())
  read := fun _ _ => (ERROR_OK, v, ())

/-- A bus on which every write reports error code 1; reads succeed and deliver 0. -/
def writeFailBus : I2CBus Unit where
  write := fun _ _ _ => (1, ())
  read := fun _ _ => (ERROR_OK, 0, ())

/-- A bus on which every write succeeds and every read reports error code 1. -/
def readFailBus : I2CBus Unit where
  write := fun _ _ _ => (ERROR_OK, ())
  read := fun _ _ => (1, 0, ())

/-- A controller before `setup`: all caches zero, not failed, nothing on the log. -/
def fresh : CH423Component Unit :=
  { mode_value_ := 0, output_bits_ := 0, input_bits_ := 0, pin_read_flags_ := 0,
    failed := false, warning := false, bus := (), trace := [] }

/-- The spec's scenario up to the read: on a fresh controller over an always-succeeding bus,
pin 0 configured OUTPUT, pin 9 configured OPEN_DRAIN, pin 0 written true, then `loop`. -/
def scenario : CH423Component Unit :=
  loop (digital_write W0 (okBus 0) 0 true
    (pin_mode 9 FLAG_OPEN_DRAIN (pin_mode 0 FLAG_OUTPUT fresh)))

/-- A controller whose chip does not answer: `setup` run on a bus whose writes all fail. -/
def absent : CH423Component Unit :=
  setup W0 writeFailBus fresh

/-- The fields of `CH423GPIOPin`; its `parent_` is the controller, passed to each call. -/
structure CH423GPIOPin where
  pin_ : Nat
  inverted_ : Bool
  flags_ : Nat
  deriving DecidableEq

/-- `CH423GPIOPin::pin_mode(gpio::Flags flags)`. -/
def CH423GPIOPin.pin_mode (g : CH423GPIOPin) (flags : Nat) (s : CH423Component β) :
    CH423Component β :=
  CH423.pin_mode g.pin_ flags s

/-- `CH423GPIOPin::digital_read()`. -/
def CH423GPIOPin.digital_read (W : Widths) (T : I2CBus β) (g : CH423GPIOPin)
    (s : CH423Component β) : Bool × CH423Component β :=
  let r := CH423.digital_read W T g.pin_ s
  (xor r.1 g.inverted_, r.2)

/-- `CH423GPIOPin::digital_write(bool value)`. -/
def CH423GPIOPin.digital_write (W : Widths) (T : I2CBus β) (g : CH423GPIOPin) (value : Bool)
    (s : CH423Component β) : CH423Component β :=
  CH423.digital_write W T g.pin_ (xor value g.inverted_) s

/-- `CH423GPIOPin::set_flags(gpio::Flags flags)`: the pin after the call and the controller
after the call. -/
def CH423GPIOPin.set_flags (g : CH423GPIOPin) (flags : Nat) (s : CH423Component β) :
    CH423GPIOPin × CH423Component β :=
  ({ g with flags_ := flags }, CH423.pin_mode g.pin_ flags s)

/-- A bus on which every transaction succeeds and a read of the input register delivers the
last byte written to the low output register (its state; other reads deliver 0). -/
def echoBus : I2CBus Nat where
  write := fun b reg v => (ERROR_OK, if reg = CH423_REG_OUT then v else b)
  read := fun b reg => (ERROR_OK, if reg = CH423_REG_IN then b else 0, b)

/-- A controller before `setup` on the echoing bus, nothing written yet. -/
def freshEcho : CH423Component Nat :=
  { mode_value_ := 0, output_bits_ := 0, input_bits_ := 0, pin_read_flags_ := 0,
    failed := false, warning := false, bus := 0, trace := [] }

/-! ## Bit-level facts -/

theorem and_bit_ne_zero_iff (x p : Nat) : x &&& (1 <<< p) ≠ 0 ↔ x.testBit p = true := by
  constructor
  · intro h
    obtain ⟨i, hi⟩ := Nat.ne_zero_implies_bit_true h
    simp only [Nat.testBit_and, Nat.one_shiftLeft, Nat.testBit_two_pow, Bool.and_eq_true,
      decide_eq_true_eq] at hi
    obtain ⟨h1, h2⟩ := hi
    subst h2
    exact h1
  · intro h hz
    have h2 : (x &&& (1 <<< p)).testBit p = true := by
      simp [Nat.testBit_and, Nat.one_shiftLeft, Nat.testBit_two_pow, h]
    rw [hz] at h2
    simp at h2

theorem testBit_eq_false_of_lt_two_pow {x w q : Nat} (hx : x < 2 ^ w) (hq : w ≤ q) :
    x.testBit q = false :=
  Nat.testBit_lt_two_pow (Nat.lt_of_lt_of_le hx (Nat.pow_le_pow_right (by decide) hq))

theorem testBit_set_bit_mod (x p w q : Nat) (hx : x < 2 ^ w) (hp : p < w) :
    ((x ||| (1 <<< p)) % 2 ^ w).testBit q = (x.testBit q || decide (p = q)) := by
  rw [Nat.testBit_mod_two_pow, Nat.testBit_or, Nat.one_shiftLeft, Nat.testBit_two_pow]
  by_cases hq : q < w
  · simp [hq]
  · have h1 : x.testBit q = false := testBit_eq_false_of_lt_two_pow hx (by omega)
    have h2 : p ≠ q := by omega
    simp [hq, h1, h2]

theorem set_bit_mod_lt (x p w : Nat) : (x ||| (1 <<< p)) % 2 ^ w < 2 ^ w :=
  Nat.mod_lt _ (Nat.two_pow_pos w)

theorem mode_bit_iff (m : Nat) : m &&& CH423_MODE_OUTPUT ≠ 0 ↔ m.testBit 0 = true := by
  simp [CH423_MODE_OUTPUT]

/-! ## Single transactions -/

section Transactions
variable (T : I2CBus β) (s : CH423Component β)

theorem write_reg_fst (reg v : Nat) :
    (write_reg_ T reg v s).1 = decide ((T.write s.bus (reg % 256) (v % 256)).1 = ERROR_OK) := by
  unfold write_reg_
  by_cases h : (T.write s.bus (reg % 256) (v % 256)).1 = ERROR_OK <;> simp [h]

theorem write_reg_snd (reg v : Nat) :
    (write_reg_ T reg v s).2 =
      { s with
        bus := (T.write s.bus (reg % 256) (v % 256)).2
        trace := s.trace ++ [Txn.write (reg % 256) (v % 256)]
        warning := decide ((T.write s.bus (reg % 256) (v % 256)).1 ≠ ERROR_OK) } := by
  unfold write_reg_
  by_cases h : (T.write s.bus (reg % 256) (v % 256)).1 = ERROR_OK <;>
    simp [h, status_set_warning, status_clear_warning]

theorem read_reg_fst (reg : Nat) :
    (read_reg_ T reg s).1 =
      if (T.read s.bus (reg % 256)).1 = ERROR_OK then (T.read s.bus (reg % 256)).2.1 % 256
      else 0 := by
  unfold read_reg_
  by_cases h : (T.read s.bus (reg % 256)).1 = ERROR_OK <;> simp [h]

theorem read_reg_snd (reg : Nat) :
    (read_reg_ T reg s).2 =
      { s with
        bus := (T.read s.bus (reg % 256)).2.2
        trace := s.trace ++ [Txn.read (reg % 256)]
        warning := decide ((T.read s.bus (reg % 256)).1 ≠ ERROR_OK) } := by
  unfold read_reg_
  by_cases h : (T.read s.bus (reg % 256)).1 = ERROR_OK <;>
    simp [h, status_set_warning, status_clear_warning]

end Transactions

/-! ## `write_outputs_` -/

section WriteOutputs
variable (T : I2CBus β) (s : CH423Component β)

/-- The three output writes, in the order `write_outputs_` issues them. -/
theorem write_outputs_trace :
    (write_outputs_ T s).2.trace = s.trace ++
      (if (T.write s.bus CH423_REG_OUT (s.output_bits_ % 256)).1 ≠ ERROR_OK then
        [Txn.write CH423_REG_OUT (s.output_bits_ % 256)]
      else if (T.write (T.write s.bus CH423_REG_OUT (s.output_bits_ % 256)).2
          CH423_REG_OUT_UPPER_l (s.output_bits_ >>> 8 % 256)).1 ≠ ERROR_OK then
        [Txn.write CH423_REG_OUT (s.output_bits_ % 256),
         Txn.write CH423_REG_OUT_UPPER_l (s.output_bits_ >>> 8 % 256)]
      else
        [Txn.write CH423_REG_OUT (s.output_bits_ % 256),
         Txn.write CH423_REG_OUT_UPPER_l (s.output_bits_ >>> 8 % 256),
         Txn.write CH423_REG_OUT_UPPER (s.output_bits_ >>> 16 % 256)]) := by
  unfold write_outputs_
  simp only [write_reg_fst, write_reg_snd, CH423_REG_OUT, CH423_REG_OUT_UPPER_l,
    CH423_REG_OUT_UPPER, Nat.mod_mod, Nat.reduceMod]
  split_ifs <;> simp_all [write_reg_snd]

theorem write_outputs_mode : (write_outputs_ T s).2.mode_value_ = s.mode_value_ := by
  simp only [write_outputs_]; split_ifs <;> simp only [write_reg_snd]

theorem write_outputs_output : (write_outputs_ T s).2.output_bits_ = s.output_bits_ := by
  simp only [write_outputs_]; split_ifs <;> simp only [write_reg_snd]

theorem write_outputs_input : (write_outputs_ T s).2.input_bits_ = s.input_bits_ := by
  simp only [write_outputs_]; split_ifs <;> simp only [write_reg_snd]

theorem write_outputs_flags : (write_outputs_ T s).2.pin_read_flags_ = s.pin_read_flags_ := by
  simp only [write_outputs_]; split_ifs <;> simp only [write_reg_snd]

theorem write_outputs_failed : (write_outputs_ T s).2.failed = s.failed := by
  simp only [write_outputs_]; split_ifs <;> simp only [write_reg_snd]

end WriteOutputs

/-! ## `read_inputs_` -/

section ReadInputs
variable (W : Widths) (T : I2CBus β) (s : CH423Component β)

theorem read_inputs_of_failed (h : s.failed = true) : read_inputs_ W T s = (false, s) := by
  simp [read_inputs_, h]

theorem read_inputs_fst (h : s.failed = false) : (read_inputs_ W T s).1 = true := by
  simp [read_inputs_, h]

theorem read_inputs_trace (h : s.failed = false) :
    (read_inputs_ W T s).2.trace = s.trace ++
      (if s.mode_value_.testBit 0 = true then
        [Txn.write CH423_REG_MODE ((s.mode_value_ &&& bitNot CH423_MODE_OUTPUT) % 256),
         Txn.read CH423_REG_IN,
         Txn.write CH423_REG_MODE (s.mode_value_ % 256)]
      else [Txn.read CH423_REG_IN]) := by
  by_cases hm : s.mode_value_.testBit 0 = true
  · have hm2 := (mode_bit_iff s.mode_value_).2 hm
    simp only [read_inputs_, h, hm, if_pos hm2, set_mode_, write_reg_snd, read_reg_snd,
      status_clear_warning]
    simp [CH423_REG_MODE, CH423_REG_IN]
  · have hm2 : ¬ (s.mode_value_ &&& CH423_MODE_OUTPUT ≠ 0) := fun h2 =>
      hm ((mode_bit_iff s.mode_value_).1 h2)
    simp only [read_inputs_, h, hm, if_neg hm2, read_reg_snd, status_clear_warning]
    simp [CH423_REG_IN]

theorem read_inputs_mode : (read_inputs_ W T s).2.mode_value_ = s.mode_value_ := by
  simp only [read_inputs_, set_mode_, status_clear_warning]
  split_ifs <;> simp only [write_reg_snd, read_reg_snd]

theorem read_inputs_output : (read_inputs_ W T s).2.output_bits_ = s.output_bits_ := by
  simp only [read_inputs_, set_mode_, status_clear_warning]
  split_ifs <;> simp only [write_reg_snd, read_reg_snd]

theorem read_inputs_flags : (read_inputs_ W T s).2.pin_read_flags_ = s.pin_read_flags_ := by
  simp only [read_inputs_, set_mode_, status_clear_warning]
  split_ifs <;> simp only [write_reg_snd, read_reg_snd]

theorem read_inputs_failed : (read_inputs_ W T s).2.failed = s.failed := by
  simp only [read_inputs_, set_mode_, status_clear_warning]
  split_ifs <;> simp only [write_reg_snd, read_reg_snd]

theorem inputReads_append (l m : List Txn) : inputReads (l ++ m) = inputReads l + inputReads m := by
  simp [inputReads, List.count_append]

theorem read_inputs_inputReads (h : s.failed = false) :
    inputReads (read_inputs_ W T s).2.trace = inputReads s.trace + 1 := by
  rw [read_inputs_trace W T s h, inputReads_append]
  split_ifs <;> simp [inputReads, CH423_REG_IN, CH423_REG_MODE]

end ReadInputs

/-! ## `digital_read` -/

section DigitalRead
variable (W : Widths) (T : I2CBus β) (p : Nat) (s : CH423Component β)

/-- The condition under which `digital_read` refreshes the input cache. -/
theorem refresh_cond_iff :
    (s.pin_read_flags_ = 0 ∨ s.pin_read_flags_ &&& (1 <<< p) ≠ 0) ↔
      (s.pin_read_flags_ = 0 ∨ s.pin_read_flags_.testBit p = true) := by
  rw [and_bit_ne_zero_iff]

theorem digital_read_fst :
    (digital_read W T p s).1 = (digital_read W T p s).2.input_bits_.testBit p := by
  simp only [digital_read]
  rw [Bool.eq_iff_iff, decide_eq_true_iff, and_bit_ne_zero_iff]

theorem digital_read_refresh
    (h : s.pin_read_flags_ = 0 ∨ s.pin_read_flags_.testBit p = true) :
    (digital_read W T p s).2 =
      { (read_inputs_ W T s).2 with
        pin_read_flags_ := (s.pin_read_flags_ ||| (1 <<< p)) % 2 ^ W.flags } := by
  have h2 := (refresh_cond_iff p s).2 h
  simp only [digital_read, h2, if_true, read_inputs_flags]

theorem digital_read_cached
    (h : ¬ (s.pin_read_flags_ = 0 ∨ s.pin_read_flags_.testBit p = true)) :
    (digital_read W T p s).2 =
      { s with pin_read_flags_ := (s.pin_read_flags_ ||| (1 <<< p)) % 2 ^ W.flags } := by
  have h2 : ¬ (s.pin_read_flags_ = 0 ∨ s.pin_read_flags_ &&& (1 <<< p) ≠ 0) :=
    fun h3 => h ((refresh_cond_iff p s).1 h3)
  simp only [digital_read, h2, if_false]

theorem digital_read_flags :
    (digital_read W T p s).2.pin_read_flags_ =
      (s.pin_read_flags_ ||| (1 <<< p)) % 2 ^ W.flags := by
  by_cases h : s.pin_read_flags_ = 0 ∨ s.pin_read_flags_.testBit p = true
  · rw [digital_read_refresh W T p s h]
  · rw [digital_read_cached W T p s h]

theorem digital_read_failed : (digital_read W T p s).2.failed = s.failed := by
  by_cases h : s.pin_read_flags_ = 0 ∨ s.pin_read_flags_.testBit p = true
  · rw [digital_read_refresh W T p s h]; exact read_inputs_failed W T s
  · rw [digital_read_cached W T p s h]

theorem digital_read_mode : (digital_read W T p s).2.mode_value_ = s.mode_value_ := by
  by_cases h : s.pin_read_flags_ = 0 ∨ s.pin_read_flags_.testBit p = true
  · rw [digital_read_refresh W T p s h]; exact read_inputs_mode W T s
  · rw [digital_read_cached W T p s h]

end DigitalRead

/-! ## Reading several pins in one cycle -/

section ReadPins
variable (W : Widths) (T : I2CBus β)

theorem read_pins_nil (s : CH423Component β) : read_pins W T [] s = s := rfl

theorem read_pins_cons (p : Nat) (ps : List Nat) (s : CH423Component β) :
    read_pins W T (p :: ps) s = read_pins W T ps (digital_read W T p s).2 := rfl

/-- Once some flag is set, reading pins whose flags are still clear is served from the cache:
the log does not grow, and exactly the flags of those pins are added. -/
theorem read_pins_cached (hW : 16 ≤ W.flags) :
    ∀ (pins : List Nat) (s : CH423Component β), pins.Nodup → (∀ p ∈ pins, p < 16) →
      s.pin_read_flags_ ≠ 0 → s.pin_read_flags_ < 2 ^ W.flags →
      (∀ p ∈ pins, s.pin_read_flags_.testBit p = false) →
      (read_pins W T pins s).trace = s.trace ∧
      (read_pins W T pins s).failed = s.failed ∧
      (read_pins W T pins s).pin_read_flags_ < 2 ^ W.flags ∧
      ∀ q, (read_pins W T pins s).pin_read_flags_.testBit q =
        (s.pin_read_flags_.testBit q || decide (q ∈ pins)) := by
  intro pins
  induction pins with
  | nil => intro s _ _ _ hlt _; simp [read_pins_nil, hlt]
  | cons p ps ih =>
    intro s hd hp hne hlt hclear
    have hp16 : p < 16 := hp p (List.mem_cons_self p ps)
    have hpW : p < W.flags := by omega
    have hnot : ¬ (s.pin_read_flags_ = 0 ∨ s.pin_read_flags_.testBit p = true) := by
      rintro (h | h)
      · exact hne h
      · rw [hclear p (List.mem_cons_self p ps)] at h; exact Bool.false_ne_true h
    have hs1 := digital_read_cached W T p s hnot
    have hbits : ∀ q, (digital_read W T p s).2.pin_read_flags_.testBit q =
        (s.pin_read_flags_.testBit q || decide (p = q)) := by
      intro q; rw [digital_read_flags]; exact testBit_set_bit_mod _ _ _ _ hlt hpW
    have hne1 : (digital_read W T p s).2.pin_read_flags_ ≠ 0 := by
      intro h0
      have := hbits p
      rw [h0] at this
      simp at this
    have hlt1 : (digital_read W T p s).2.pin_read_flags_ < 2 ^ W.flags := by
      rw [digital_read_flags]; exact set_bit_mod_lt _ _ _
    have hclear1 : ∀ q ∈ ps, (digital_read W T p s).2.pin_read_flags_.testBit q = false := by
      intro q hq
      have hqp : p ≠ q := fun h => (List.nodup_cons.1 hd).1 (h ▸ hq)
      rw [hbits q, hclear q (List.mem_cons_of_mem p hq)]
      simp [hqp]
    obtain ⟨h1, h2, h3, h4⟩ := ih (digital_read W T p s).2 (List.nodup_cons.1 hd).2
      (fun q hq => hp q (List.mem_cons_of_mem p hq)) hne1 hlt1 hclear1
    rw [read_pins_cons]
    refine ⟨?_, ?_, h3, ?_⟩
    · rw [h1, hs1]
    · rw [h2, hs1]
    · intro q
      rw [h4 q, hbits q]
      by_cases hqp : p = q
      · subst hqp; simp
      · have : ¬ q = p := fun h => hqp h.symm
        simp [hqp, this]

/-- One cycle: `loop`, then one `digital_read` per pin of a duplicate-free non-empty list. -/
theorem read_pins_after_loop (hW : 16 ≤ W.flags) (p : Nat) (ps : List Nat)
    (s : CH423Component β) (hd : (p :: ps).Nodup) (hp : ∀ q ∈ p :: ps, q < 16)
    (hf : s.failed = false) :
    inputReads (read_pins W T (p :: ps) (loop s)).trace = inputReads s.trace + 1 ∧
    (read_pins W T (p :: ps) (loop s)).failed = false ∧
    ∀ q ∈ p :: ps, (read_pins W T (p :: ps) (loop s)).pin_read_flags_.testBit q = true := by
  have hp16 : p < 16 := hp p (List.mem_cons_self p ps)
  have hpW : p < W.flags := by omega
  have hfl : (loop s).failed = false := hf
  have hz : (loop s).pin_read_flags_ = 0 := rfl
  have hs1 := digital_read_refresh W T p (loop s) (Or.inl hz)
  have hbits : ∀ q, (digital_read W T p (loop s)).2.pin_read_flags_.testBit q = decide (p = q) := by
    intro q
    rw [digital_read_flags, hz, testBit_set_bit_mod 0 p W.flags q (Nat.two_pow_pos _) hpW]
    simp
  have hne1 : (digital_read W T p (loop s)).2.pin_read_flags_ ≠ 0 := by
    intro h0
    have := hbits p
    rw [h0] at this
    simp at this
  have hlt1 : (digital_read W T p (loop s)).2.pin_read_flags_ < 2 ^ W.flags := by
    rw [digital_read_flags]; exact set_bit_mod_lt _ _ _
  have hclear1 : ∀ q ∈ ps, (digital_read W T p (loop s)).2.pin_read_flags_.testBit q = false := by
    intro q hq
    have hqp : p ≠ q := fun h => (List.nodup_cons.1 hd).1 (h ▸ hq)
    rw [hbits q]; simp [hqp]
  obtain ⟨h1, h2, _, h4⟩ := read_pins_cached W T hW ps (digital_read W T p (loop s)).2
    (List.nodup_cons.1 hd).2 (fun q hq => hp q (List.mem_cons_of_mem p hq)) hne1 hlt1 hclear1
  rw [read_pins_cons]
  refine ⟨?_, ?_, ?_⟩
  · rw [h1, hs1]
    exact read_inputs_inputReads W T (loop s) hfl
  · rw [h2, digital_read_failed]; exact hfl
  · intro q hq
    rw [h4 q, hbits q]
    rcases List.mem_cons.1 hq with h | h
    · simp [h]
    · simp [h]

end ReadPins

/-! ## `digital_write`, `pin_mode`, `setup` -/

section Writes
variable (W : Widths) (T : I2CBus β) (p : Nat) (v : Bool) (s : CH423Component β)

/-- The output cache after `digital_write`: the pin's bit set or cleared, stored in the field. -/
theorem digital_write_output :
    (digital_write W T p v s).output_bits_ =
      if v then (s.output_bits_ ||| (1 <<< p)) % 2 ^ W.output
      else (s.output_bits_ &&& bitNot (1 <<< p)) % 2 ^ W.output := by
  simp only [digital_write, write_outputs_output]
  split_ifs <;> rfl

theorem digital_write_mode : (digital_write W T p v s).mode_value_ = s.mode_value_ := by
  simp only [digital_write, write_outputs_mode]
  split_ifs <;> rfl

theorem digital_write_input : (digital_write W T p v s).input_bits_ = s.input_bits_ := by
  simp only [digital_write, write_outputs_input]
  split_ifs <;> rfl

theorem digital_write_flags : (digital_write W T p v s).pin_read_flags_ = s.pin_read_flags_ := by
  simp only [digital_write, write_outputs_flags]
  split_ifs <;> rfl

theorem digital_write_failed : (digital_write W T p v s).failed = s.failed := by
  simp only [digital_write, write_outputs_failed]
  split_ifs <;> rfl

/-- The log of `digital_write`, in terms of the output cache it leaves. -/
theorem digital_write_trace :
    (digital_write W T p v s).trace = s.trace ++
      (if (T.write s.bus CH423_REG_OUT ((digital_write W T p v s).output_bits_ % 256)).1
          ≠ ERROR_OK then
        [Txn.write CH423_REG_OUT ((digital_write W T p v s).output_bits_ % 256)]
      else if (T.write
          (T.write s.bus CH423_REG_OUT ((digital_write W T p v s).output_bits_ % 256)).2
          CH423_REG_OUT_UPPER_l ((digital_write W T p v s).output_bits_ >>> 8 % 256)).1
          ≠ ERROR_OK then
        [Txn.write CH423_REG_OUT ((digital_write W T p v s).output_bits_ % 256),
         Txn.write CH423_REG_OUT_UPPER_l ((digital_write W T p v s).output_bits_ >>> 8 % 256)]
      else
        [Txn.write CH423_REG_OUT ((digital_write W T p v s).output_bits_ % 256),
         Txn.write CH423_REG_OUT_UPPER_l ((digital_write W T p v s).output_bits_ >>> 8 % 256),
         Txn.write CH423_REG_OUT_UPPER
           ((digital_write W T p v s).output_bits_ >>> 16 % 256)]) := by
  rw [digital_write_output]
  cases v
  · simp only [digital_write, Bool.false_eq_true, if_false]
    exact write_outputs_trace T _
  · simp only [digital_write, if_true]
    exact write_outputs_trace T _

end Writes

section PinMode
variable (p flags : Nat) (s : CH423Component β)

theorem or_mode_bit_mod (m c : Nat) (hm : m < 256) (hc : c < 256) : (m ||| c) % 256 = m ||| c :=
  Nat.mod_eq_of_lt (Nat.or_lt_two_pow (n := 8) hm hc)

theorem pin_mode_failed : (pin_mode p flags s).failed = s.failed := by
  simp only [pin_mode]; split_ifs <;> rfl

theorem pin_mode_flags : (pin_mode p flags s).pin_read_flags_ = s.pin_read_flags_ := by
  simp only [pin_mode]; split_ifs <;> rfl

theorem pin_mode_mode_lt : (pin_mode p flags s).mode_value_ < 256 ∨
    (pin_mode p flags s).mode_value_ = s.mode_value_ := by
  simp only [pin_mode]
  split_ifs
  · exact Or.inl (Nat.mod_lt _ (by decide))
  · exact Or.inr rfl
  · exact Or.inl (Nat.mod_lt _ (by decide))
  · exact Or.inr rfl

/-- The mode bits of the low byte are never cleared by `pin_mode`. -/
theorem pin_mode_mono (i : Nat) (hi : i < 8) (h : s.mode_value_.testBit i = true) :
    (pin_mode p flags s).mode_value_.testBit i = true := by
  have h256 : (256 : Nat) = 2 ^ 8 := rfl
  simp only [pin_mode]
  split_ifs
  · show ((s.mode_value_ ||| CH423_MODE_OUTPUT) % 256).testBit i = true
    rw [h256, Nat.testBit_mod_two_pow, Nat.testBit_or, h]; simp [hi]
  · exact h
  · show ((s.mode_value_ ||| CH423_MODE_OPEN_DRAIN) % 256).testBit i = true
    rw [h256, Nat.testBit_mod_two_pow, Nat.testBit_or, h]; simp [hi]
  · exact h

theorem pin_mode_output_sets (h1 : p < 8) (h2 : flags &&& FLAG_OUTPUT ≠ 0) :
    (pin_mode p flags s).mode_value_.testBit 0 = true := by
  have h256 : (256 : Nat) = 2 ^ 8 := rfl
  simp only [pin_mode, h1, if_true, if_pos h2]
  show ((s.mode_value_ ||| CH423_MODE_OUTPUT) % 256).testBit 0 = true
  rw [h256, Nat.testBit_mod_two_pow, Nat.testBit_or]
  simp [CH423_MODE_OUTPUT]

end PinMode

section Setup
variable (W : Widths) (T : I2CBus β) (s : CH423Component β)

theorem setup_mode : (setup W T s).mode_value_ = s.mode_value_ := by
  simp only [setup, set_mode_]
  split_ifs <;>
    simp only [mark_failed, read_inputs_mode, write_reg_snd, write_outputs_mode]

end Setup

/-! ## Call sequences -/

section Runs
variable (W : Widths) (T : I2CBus β)

theorem run_nil (s : CH423Component β) : run W T [] s = s := rfl

theorem run_cons (o : Op) (ops : List Op) (s : CH423Component β) :
    run W T (o :: ops) s = run W T ops (o.apply W T s) := rfl

/-- No call clears a mode bit of the low byte. -/
theorem apply_mode_mono (o : Op) (s : CH423Component β) (i : Nat) (hi : i < 8)
    (h : s.mode_value_.testBit i = true) : (o.apply W T s).mode_value_.testBit i = true := by
  cases o with
  | setup => simp only [Op.apply, setup_mode]; exact h
  | loop => exact h
  | pin_mode pin flags => exact pin_mode_mono pin flags s i hi h
  | digital_read pin => simp only [Op.apply, digital_read_mode]; exact h
  | digital_write pin value => simp only [Op.apply, digital_write_mode]; exact h
  | read_inputs => simp only [Op.apply, read_inputs_mode]; exact h

theorem run_mode_mono (i : Nat) (hi : i < 8) :
    ∀ (ops : List Op) (s : CH423Component β), s.mode_value_.testBit i = true →
      (run W T ops s).mode_value_.testBit i = true := by
  intro ops
  induction ops with
  | nil => intro s h; exact h
  | cons o ops ih =>
    intro s h
    rw [run_cons]
    exact ih _ (apply_mode_mono W T o s i hi h)

end Runs

/-! ## Clearing the output-enable bit -/

theorem clear_mode_output (m : Nat) (hm : m < 256) (h0 : m.testBit 0 = true) :
    (m &&& bitNot CH423_MODE_OUTPUT) % 256 = m - 1 := by
  apply Nat.eq_of_testBit_eq
  intro i
  have h256 : (256 : Nat) = 2 ^ 8 := rfl
  have hodd : m % 2 = 1 := Nat.mod_two_eq_one_iff_testBit_zero.2 h0
  have hnot : bitNot CH423_MODE_OUTPUT = 2 ^ 32 - (1 + 1) := by decide
  rw [h256, Nat.testBit_mod_two_pow, Nat.testBit_and, hnot,
    Nat.testBit_two_pow_sub_succ (by decide : (1 : Nat) < 2 ^ 32)]
  cases i with
  | zero =>
    have : (m - 1) % 2 = 0 := by omega
    simp [Nat.mod_two_eq_zero_iff_testBit_zero.1 this]
  | succ j =>
    have hdiv : (m - 1) / 2 = m / 2 := by omega
    have h1 : Nat.testBit 1 (j + 1) = false := by
      rw [Nat.testBit_succ]; simp
    rw [Nat.testBit_succ (m - 1), hdiv, h1]
    by_cases hj : j + 1 < 8
    · have : j + 1 < 32 := by omega
      simp [hj, this, Nat.testBit_succ]
    · have hz : m.testBit (j + 1) = false :=
        testBit_eq_false_of_lt_two_pow hm (by omega : 8 ≤ j + 1)
      rw [← Nat.testBit_succ, hz]
      simp

theorem pred_odd_testBit (m : Nat) (h0 : m.testBit 0 = true) :
    (m - 1).testBit 0 = false ∧ ∀ i, i ≠ 0 → (m - 1).testBit i = m.testBit i := by
  have hodd : m % 2 = 1 := Nat.mod_two_eq_one_iff_testBit_zero.2 h0
  constructor
  · exact Nat.mod_two_eq_zero_iff_testBit_zero.1 (by omega)
  · intro i hi
    obtain ⟨j, rfl⟩ := Nat.exists_eq_succ_of_ne_zero hi
    have hdiv : (m - 1) / 2 = m / 2 := by omega
    rw [Nat.testBit_succ, Nat.testBit_succ m, hdiv]

/-! ## The claims -/

/-- C1: `digital_read` (read_pin) on a non-failed controller, for a pin index below 16 and any
state (read flags within their field, which holds at least one flag per pin). It runs
`read_inputs_` exactly when the read flags are empty or the pin's flag is already set: in that
case the controller is the one `read_inputs_` leaves, up to the read flags, and the log has
gained exactly one input-register read; otherwise the controller is the old one up to the read
flags, so the bus and its log are untouched. Afterwards the pin's flag is set and every other
flag is as before, and the value returned is the pin's bit of the input cache as it then
stands. -/
theorem C1_digital_read_contract (W : Widths) (T : I2CBus β) (p : Nat) (s : CH423Component β)
    (hW : 16 ≤ W.flags) (hp : p < 16) (hf : s.failed = false)
    (hr : s.pin_read_flags_ < 2 ^ W.flags) :
    ((s.pin_read_flags_ = 0 ∨ s.pin_read_flags_.testBit p = true) →
      (digital_read W T p s).2 =
        { (read_inputs_ W T s).2 with
          pin_read_flags_ := (digital_read W T p s).2.pin_read_flags_ } ∧
      inputReads (digital_read W T p s).2.trace = inputReads s.trace + 1) ∧
    (¬ (s.pin_read_flags_ = 0 ∨ s.pin_read_flags_.testBit p = true) →
      (digital_read W T p s).2 =
        { s with pin_read_flags_ := (digital_read W T p s).2.pin_read_flags_ }) ∧
    (digital_read W T p s).2.pin_read_flags_.testBit p = true ∧
    (∀ q, q ≠ p →
      (digital_read W T p s).2.pin_read_flags_.testBit q = s.pin_read_flags_.testBit q) ∧
    (digital_read W T p s).1 = (digital_read W T p s).2.input_bits_.testBit p := by
  have hpW : p < W.flags := by omega
  have hbits : ∀ q, (digital_read W T p s).2.pin_read_flags_.testBit q =
      (s.pin_read_flags_.testBit q || decide (p = q)) := by
    intro q; rw [digital_read_flags]; exact testBit_set_bit_mod _ _ _ _ hr hpW
  refine ⟨?_, ?_, ?_, ?_, digital_read_fst W T p s⟩
  · intro h
    constructor
    · rw [digital_read_flags, digital_read_refresh W T p s h]
    · rw [digital_read_refresh W T p s h]
      exact read_inputs_inputReads W T s hf
  · intro h
    rw [digital_read_flags, digital_read_cached W T p s h]
  · rw [hbits p]; simp
  · intro q hq
    have : ¬ p = q := fun h => hq h.symm
    rw [hbits q]; simp [this]

/-- C1, at a concrete input: pin 0 read on a fresh controller over a bus delivering 5. -/
theorem C1_digital_read_contract_witness :
    (16 ≤ W0.flags ∧ 0 < 16 ∧ fresh.failed = false ∧ fresh.pin_read_flags_ < 2 ^ W0.flags) ∧
    (((fresh.pin_read_flags_ = 0 ∨ fresh.pin_read_flags_.testBit 0 = true) →
      (digital_read W0 (okBus 5) 0 fresh).2 =
        { (read_inputs_ W0 (okBus 5) fresh).2 with
          pin_read_flags_ := (digital_read W0 (okBus 5) 0 fresh).2.pin_read_flags_ } ∧
      inputReads (digital_read W0 (okBus 5) 0 fresh).2.trace = inputReads fresh.trace + 1) ∧
    (¬ (fresh.pin_read_flags_ = 0 ∨ fresh.pin_read_flags_.testBit 0 = true) →
      (digital_read W0 (okBus 5) 0 fresh).2 =
        { fresh with pin_read_flags_ := (digital_read W0 (okBus 5) 0 fresh).2.pin_read_flags_ }) ∧
    (digital_read W0 (okBus 5) 0 fresh).2.pin_read_flags_.testBit 0 = true ∧
    (∀ q, q ≠ 0 →
      (digital_read W0 (okBus 5) 0 fresh).2.pin_read_flags_.testBit q =
        fresh.pin_read_flags_.testBit q) ∧
    (digital_read W0 (okBus 5) 0 fresh).1 =
      (digital_read W0 (okBus 5) 0 fresh).2.input_bits_.testBit 0) :=
  ⟨⟨by decide, by decide, rfl, by decide⟩,
    C1_digital_read_contract W0 (okBus 5) 0 fresh (by decide) (by decide) rfl (by decide)⟩

/-- C2 (as amended): single read per cycle, on a non-failed controller. With a read-flag field
holding a flag per pin, for every bus and every list of at least two distinct pin indices
below 16: `loop` (begin_cycle) followed by one `digital_read` per pin of the list adds exactly
one read of the input register to the log, and a second `digital_read` of any pin of the list
adds exactly one more. -/
theorem C2_single_read_per_cycle (W : Widths) (T : I2CBus β) (pins : List Nat)
    (s : CH423Component β) (hW : 16 ≤ W.flags) (hN : 2 ≤ pins.length) (hd : pins.Nodup)
    (hp : ∀ p ∈ pins, p < 16) (hf : s.failed = false) :
    inputReads (read_pins W T pins (loop s)).trace = inputReads s.trace + 1 ∧
    ∀ q ∈ pins,
      inputReads (digital_read W T q (read_pins W T pins (loop s))).2.trace =
        inputReads (read_pins W T pins (loop s)).trace + 1 := by
  cases pins with
  | nil => simp at hN
  | cons p ps =>
    obtain ⟨h1, h2, h3⟩ := read_pins_after_loop W T hW p ps s hd hp hf
    refine ⟨h1, ?_⟩
    intro q hq
    rw [digital_read_refresh W T q _ (Or.inr (h3 q hq))]
    exact read_inputs_inputReads W T _ h2

/-- C2, at a concrete input: pins 3, 9 and 0 read in one cycle of a fresh controller. -/
theorem C2_single_read_per_cycle_witness :
    (16 ≤ W0.flags ∧ 2 ≤ [3, 9, 0].length ∧ [3, 9, 0].Nodup ∧ (∀ p ∈ [3, 9, 0], p < 16) ∧
      fresh.failed = false) ∧
    (inputReads (read_pins W0 (okBus 5) [3, 9, 0] (loop fresh)).trace =
        inputReads fresh.trace + 1 ∧
      ∀ q ∈ [3, 9, 0],
        inputReads (digital_read W0 (okBus 5) q (read_pins W0 (okBus 5) [3, 9, 0]
          (loop fresh))).2.trace =
          inputReads (read_pins W0 (okBus 5) [3, 9, 0] (loop fresh)).trace + 1) :=
  ⟨⟨by decide, by decide, by decide, by decide, rfl⟩,
    C2_single_read_per_cycle W0 (okBus 5) [3, 9, 0] fresh (by decide) (by decide) (by decide)
      (by decide) rfl⟩

/-- C2 as stated fails on a failed controller: after `setup` has marked the controller failed,
a cycle that reads pins 0 and 1 puts no read of the input register on the bus. -/
theorem C2_counterexample :
    absent.failed = true ∧
    inputReads (read_pins W0 writeFailBus [0, 1] (loop absent)).trace =
      inputReads absent.trace ∧
    inputReads (read_pins W0 writeFailBus [0, 1] (loop absent)).trace ≠
      inputReads absent.trace + 1 := by
  decide

/-- C3 (as amended): `digital_write` (write_pin), from every state and for every pin, value and
bus behaviour, issues only register writes, in the order OUTPUT_LOW (0x38), OUTPUT_HIGH_A
(0x22), OUTPUT_HIGH_B (0x23), carrying bits 0-7, 8-15 and 16-23 of the updated output cache; it
stops after the first write that reports a transport error, so all three are issued exactly when
the first two succeed. -/
theorem C3_digital_write_trace (W : Widths) (T : I2CBus β) (p : Nat) (v : Bool)
    (s : CH423Component β) :
    let out := (digital_write W T p v s).output_bits_
    let lo := Txn.write CH423_REG_OUT (out % 256)
    let mid := Txn.write CH423_REG_OUT_UPPER_l (out >>> 8 % 256)
    let hi := Txn.write CH423_REG_OUT_UPPER (out >>> 16 % 256)
    let r1 := T.write s.bus CH423_REG_OUT (out % 256)
    let r2 := T.write r1.2 CH423_REG_OUT_UPPER_l (out >>> 8 % 256)
    (digital_write W T p v s).trace = s.trace ++
      (if r1.1 ≠ ERROR_OK then [lo] else if r2.1 ≠ ERROR_OK then [lo, mid]
        else [lo, mid, hi]) := by
  intro out lo mid hi r1 r2
  exact digital_write_trace W T p v s

/-- C3 as stated fails: on a bus whose writes report an error, writing pin 0 issues one
register write, not three. -/
theorem C3_counterexample :
    (digital_write W0 writeFailBus 0 true fresh).trace =
      fresh.trace ++ [Txn.write CH423_REG_OUT 1] ∧
    (digital_write W0 writeFailBus 0 true fresh).trace.length ≠ fresh.trace.length + 3 := by
  decide

/-- C4: mode switch for read. On a non-failed controller whose mode byte (8 bits) has the
output-enable bit set, for every bus behaviour, `read_inputs_` leaves the mode byte as it was and
adds to the log exactly: a write of the mode byte with only bit 0 cleared to MODE (0x24), a read
of INPUT (0x26), a write of the original mode byte to MODE. In the spec's scenario (pin 0
OUTPUT, pin 9 OPEN_DRAIN, write pin 0 true, `loop`, read pin 1), from any non-failed controller,
the read of pin 1 adds exactly those three transactions with the open-drain bit on in both mode
writes. -/
theorem C4_mode_switch_for_read (W : Widths) (T : I2CBus β) (s : CH423Component β)
    (hf : s.failed = false) (hb : s.mode_value_ < 256)
    (hm : s.mode_value_.testBit 0 = true) :
    (read_inputs_ W T s).2.mode_value_ = s.mode_value_ ∧
    (read_inputs_ W T s).2.trace = s.trace ++
      [Txn.write CH423_REG_MODE (s.mode_value_ - 1), Txn.read CH423_REG_IN,
       Txn.write CH423_REG_MODE s.mode_value_] ∧
    (s.mode_value_ - 1).testBit 0 = false ∧
    (∀ i, i ≠ 0 → (s.mode_value_ - 1).testBit i = s.mode_value_.testBit i) ∧
    (∀ s0 : CH423Component β, s0.failed = false →
      let s1 := loop (digital_write W T 0 true
        (pin_mode 9 FLAG_OPEN_DRAIN (pin_mode 0 FLAG_OUTPUT s0)))
      (digital_read W T 1 s1).2.trace = s1.trace ++
        [Txn.write CH423_REG_MODE (s1.mode_value_ - 1), Txn.read CH423_REG_IN,
         Txn.write CH423_REG_MODE s1.mode_value_] ∧
      (s1.mode_value_ - 1).testBit 2 = true ∧ s1.mode_value_.testBit 2 = true ∧
      (digital_read W T 1 s1).2.mode_value_ = s1.mode_value_) := by
  have key : ∀ t : CH423Component β, t.failed = false → t.mode_value_ < 256 →
      t.mode_value_.testBit 0 = true →
      (read_inputs_ W T t).2.trace = t.trace ++
        [Txn.write CH423_REG_MODE (t.mode_value_ - 1), Txn.read CH423_REG_IN,
         Txn.write CH423_REG_MODE t.mode_value_] := by
    intro t h1 h2 h3
    rw [read_inputs_trace W T t h1, if_pos h3, clear_mode_output _ h2 h3, Nat.mod_eq_of_lt h2]
  refine ⟨read_inputs_mode W T s, key s hf hb hm, (pred_odd_testBit _ hm).1,
    (pred_odd_testBit _ hm).2, ?_⟩
  intro s0 h0 s1
  have hfail : s1.failed = false := by
    show (digital_write W T 0 true _).failed = false
    rw [digital_write_failed, pin_mode_failed, pin_mode_failed]; exact h0
  have hmode : s1.mode_value_ =
      (pin_mode 9 FLAG_OPEN_DRAIN (pin_mode 0 FLAG_OUTPUT s0)).mode_value_ := by
    show (digital_write W T 0 true _).mode_value_ = _
    rw [digital_write_mode]
  have h256 : (256 : Nat) = 2 ^ 8 := rfl
  have hbit0 : s1.mode_value_.testBit 0 = true := by
    rw [hmode]
    exact pin_mode_mono _ _ _ 0 (by decide)
      (pin_mode_output_sets 0 FLAG_OUTPUT s0 (by decide) (by decide))
  have hval : s1.mode_value_ =
      (((s0.mode_value_ ||| CH423_MODE_OUTPUT) % 256) ||| CH423_MODE_OPEN_DRAIN) % 256 := by
    rw [hmode]; rfl
  have hlt : s1.mode_value_ < 256 := by
    rw [hval]; exact Nat.mod_lt _ (by decide)
  have hbit2 : s1.mode_value_.testBit 2 = true := by
    rw [hval, h256, Nat.testBit_mod_two_pow, Nat.testBit_or]
    have h4 : Nat.testBit CH423_MODE_OPEN_DRAIN 2 = true := by decide
    simp [h4]
  have hz : s1.pin_read_flags_ = 0 := rfl
  refine ⟨?_, ?_, hbit2, digital_read_mode W T 1 s1⟩
  · rw [digital_read_refresh W T 1 s1 (Or.inl hz)]
    exact key s1 hfail hlt hbit0
  · rw [(pred_odd_testBit _ hbit0).2 2 (by decide)]; exact hbit2

/-- C4, at the spec's scenario: the refresh on the scenario controller restores the mode byte
and logs the clear, the input read and the restore. -/
theorem C4_mode_switch_for_read_witness :
    (scenario.failed = false ∧ scenario.mode_value_ < 256 ∧
      scenario.mode_value_.testBit 0 = true) ∧
    (read_inputs_ W0 (okBus 0) scenario).2.mode_value_ = scenario.mode_value_ ∧
    (read_inputs_ W0 (okBus 0) scenario).2.trace = scenario.trace ++
      [Txn.write CH423_REG_MODE (scenario.mode_value_ - 1), Txn.read CH423_REG_IN,
       Txn.write CH423_REG_MODE scenario.mode_value_] :=
  ⟨⟨by decide, by decide, by decide⟩,
    (C4_mode_switch_for_read W0 (okBus 0) scenario (by decide) (by decide) (by decide)).1,
    (C4_mode_switch_for_read W0 (okBus 0) scenario (by decide) (by decide) (by decide)).2.1⟩

/-- C5 fails on the code: the controller that `setup` has marked failed (chip absent, every
write reports an error) still puts a register write on the bus when a pin is written, and all
three output writes once the bus answers. -/
theorem C5_failed_write_reaches_bus :
    absent.failed = true ∧
    (digital_write W0 writeFailBus 0 true absent).trace =
      absent.trace ++ [Txn.write CH423_REG_OUT 1] ∧
    (digital_write W0 (okBus 0) 0 true absent).trace =
      absent.trace ++ [Txn.write CH423_REG_OUT 1, Txn.write CH423_REG_OUT_UPPER_l 0,
        Txn.write CH423_REG_OUT_UPPER 0] := by
  decide

/-- C7 fails on the code: with every write succeeding and the verification read of the input
register reporting a transport error, `setup` issues that read and still leaves the controller
not failed. -/
theorem C7_setup_ignores_read_error :
    (readFailBus.write () CH423_REG_MODE fresh.mode_value_).1 = ERROR_OK ∧
    (readFailBus.read () CH423_REG_IN).1 ≠ ERROR_OK ∧
    Txn.read CH423_REG_IN ∈ (setup W0 readFailBus fresh).trace ∧
    (setup W0 readFailBus fresh).failed = false := by
  decide

/-- C8 fails on the code: when the input-register read reports a transport error,
`read_inputs_` on a non-failed controller still returns true. -/
theorem C8_read_inputs_ignores_errors :
    fresh.failed = false ∧
    (readFailBus.read fresh.bus CH423_REG_IN).1 ≠ ERROR_OK ∧
    (read_inputs_ W0 readFailBus fresh).2.trace = [Txn.read CH423_REG_IN] ∧
    (read_inputs_ W0 readFailBus fresh).1 = true := by
  decide

/-- C9: group monotonicity. Over any sequence of calls (`setup`, `loop`, `pin_mode` with any pin
and flags, `digital_read`, `digital_write`, `read_inputs_`), from any state: if the low-group
output-enable bit (0x01) of the mode byte is set before, it is set after, and likewise the
high-group open-drain bit (0x04). In particular `pin_mode` with OUTPUT among the flags on pin 3
followed by `pin_mode` with any flags on pin 5 leaves bit 0x01 set. -/
theorem C9_group_monotonicity (W : Widths) (T : I2CBus β) (ops : List Op)
    (s : CH423Component β) :
    (s.mode_value_.testBit 0 = true → (run W T ops s).mode_value_.testBit 0 = true) ∧
    (s.mode_value_.testBit 2 = true → (run W T ops s).mode_value_.testBit 2 = true) ∧
    (∀ f3 f5 : Nat, f3 &&& FLAG_OUTPUT ≠ 0 →
      (pin_mode 5 f5 (pin_mode 3 f3 s)).mode_value_.testBit 0 = true) :=
  ⟨run_mode_mono W T 0 (by decide) ops s, run_mode_mono W T 2 (by decide) ops s,
    fun f3 f5 h => pin_mode_mono 5 f5 _ 0 (by decide)
      (pin_mode_output_sets 3 f3 s (by decide) h)⟩

/-- C9, at a concrete input: the scenario controller has both group bits set and keeps them
over a cycle that configures pins without the flags, reads and writes. -/
theorem C9_group_monotonicity_witness :
    (scenario.mode_value_.testBit 0 = true ∧ scenario.mode_value_.testBit 2 = true) ∧
    (run W0 (okBus 0) [Op.pin_mode 5 0, Op.pin_mode 12 0, Op.loop, Op.digital_read 5,
      Op.digital_write 2 false, Op.read_inputs] scenario).mode_value_.testBit 0 = true ∧
    (run W0 (okBus 0) [Op.pin_mode 5 0, Op.pin_mode 12 0, Op.loop, Op.digital_read 5,
      Op.digital_write 2 false, Op.read_inputs] scenario).mode_value_.testBit 2 = true :=
  ⟨⟨by decide, by decide⟩,
    (C9_group_monotonicity W0 (okBus 0) [Op.pin_mode 5 0, Op.pin_mode 12 0, Op.loop,
      Op.digital_read 5, Op.digital_write 2 false, Op.read_inputs] scenario).1 (by decide),
    (C9_group_monotonicity W0 (okBus 0) [Op.pin_mode 5 0, Op.pin_mode 12 0, Op.loop,
      Op.digital_read 5, Op.digital_write 2 false, Op.read_inputs] scenario).2.1 (by decide)⟩

/-- C10: `pin_mode` (configure_pin) on a controller whose mode byte is within its 8 bits, for
every pin and flag set: with OUTPUT among the flags of a pin below 8 the mode byte becomes
old | 0x01; with OPEN_DRAIN among the flags of a pin from 8 up it becomes old | 0x04; in every
other case it is unchanged. No other field of the controller, nor the bus or its log,
changes. -/
theorem C10_pin_mode_exact (p flags : Nat) (s : CH423Component β)
    (hm : s.mode_value_ < 256) :
    pin_mode p flags s =
      { s with
        mode_value_ :=
          if p < 8 ∧ flags &&& FLAG_OUTPUT ≠ 0 then s.mode_value_ ||| 0x01
          else if 8 ≤ p ∧ flags &&& FLAG_OPEN_DRAIN ≠ 0 then s.mode_value_ ||| 0x04
          else s.mode_value_ } := by
  have h1 := or_mode_bit_mod s.mode_value_ CH423_MODE_OUTPUT hm (by decide)
  have h4 := or_mode_bit_mod s.mode_value_ CH423_MODE_OPEN_DRAIN hm (by decide)
  simp only [pin_mode, h1, h4]
  by_cases hp : p < 8
  · have hp2 : ¬ 8 ≤ p := by omega
    by_cases hfl : flags &&& FLAG_OUTPUT ≠ 0
    · simp only [hp, if_true, if_pos hfl, true_and]; rfl
    · simp only [hp, if_true, if_neg hfl, true_and, hp2, false_and, if_false]
  · have hp2 : 8 ≤ p := by omega
    by_cases hfl : flags &&& FLAG_OPEN_DRAIN ≠ 0
    · simp only [hp, if_false, if_pos hfl, false_and, hp2, true_and]; rfl
    · simp only [hp, if_false, if_neg hfl, false_and, hp2, true_and]

/-- C10, at a concrete input: OPEN_DRAIN requested on pin 9 of a fresh controller. -/
theorem C10_pin_mode_exact_witness :
    fresh.mode_value_ < 256 ∧
    pin_mode 9 FLAG_OPEN_DRAIN fresh =
      { fresh with
        mode_value_ :=
          if 9 < 8 ∧ FLAG_OPEN_DRAIN &&& FLAG_OUTPUT ≠ 0 then fresh.mode_value_ ||| 0x01
          else if 8 ≤ 9 ∧ FLAG_OPEN_DRAIN &&& FLAG_OPEN_DRAIN ≠ 0 then
            fresh.mode_value_ ||| 0x04
          else fresh.mode_value_ } :=
  ⟨by decide, C10_pin_mode_exact 9 FLAG_OPEN_DRAIN fresh (by decide)⟩

/-! ## Clearing a bit of a cache, and what `read_inputs_` stores -/

theorem testBit_bitNot_bit (p q : Nat) (hp : p < 32) :
    (bitNot (1 <<< p)).testBit q = (decide (q < 32) && !decide (p = q)) := by
  have h1 : bitNot (1 <<< p) = 2 ^ 32 - (2 ^ p + 1) := by
    simp only [bitNot, Nat.one_shiftLeft]; omega
  have h2 : 2 ^ p < 2 ^ 32 := Nat.pow_lt_pow_right (by decide) hp
  rw [h1, Nat.testBit_two_pow_sub_succ h2, Nat.testBit_two_pow]

theorem testBit_clear_bit_mod (x p w q : Nat) (hx : x < 2 ^ w) (hw : w ≤ 32) (hp : p < 32) :
    ((x &&& bitNot (1 <<< p)) % 2 ^ w).testBit q = (x.testBit q && !decide (p = q)) := by
  rw [Nat.testBit_mod_two_pow, Nat.testBit_and, testBit_bitNot_bit p q hp]
  by_cases hq : q < w
  · have : q < 32 := by omega
    simp [hq, this]
  · have h1 : x.testBit q = false := testBit_eq_false_of_lt_two_pow hx (by omega)
    simp [h1]

theorem testBit_clear_bit_self (x p w : Nat) (hp : p < 32) :
    ((x &&& bitNot (1 <<< p)) % 2 ^ w).testBit p = false := by
  rw [Nat.testBit_mod_two_pow, Nat.testBit_and, testBit_bitNot_bit p p hp]
  simp

theorem testBit_set_bit_self (x p w : Nat) (hp : p < w) :
    ((x ||| (1 <<< p)) % 2 ^ w).testBit p = true := by
  rw [Nat.testBit_mod_two_pow, Nat.testBit_or, Nat.one_shiftLeft, Nat.testBit_two_pow]
  simp [hp]

section ReadInputsValue
variable (W : Widths) (T : I2CBus β) (s : CH423Component β)

/-- The bus state in which `read_inputs_` issues its read of the input register. -/
theorem read_inputs_input (h : s.failed = false) :
    (read_inputs_ W T s).2.input_bits_ =
      (if (T.read (if s.mode_value_.testBit 0 = true then
            (T.write s.bus CH423_REG_MODE ((s.mode_value_ &&& bitNot CH423_MODE_OUTPUT) % 256)).2
          else s.bus) CH423_REG_IN).1 = ERROR_OK then
        (T.read (if s.mode_value_.testBit 0 = true then
            (T.write s.bus CH423_REG_MODE ((s.mode_value_ &&& bitNot CH423_MODE_OUTPUT) % 256)).2
          else s.bus) CH423_REG_IN).2.1 % 256
      else 0) % 2 ^ W.input := by
  by_cases hm : s.mode_value_.testBit 0 = true
  · have hm2 := (mode_bit_iff s.mode_value_).2 hm
    simp only [read_inputs_, h, hm, if_pos hm2, set_mode_, write_reg_snd, read_reg_snd,
      read_reg_fst, status_clear_warning]
    simp [CH423_REG_MODE, CH423_REG_IN]
  · have hm2 : ¬ (s.mode_value_ &&& CH423_MODE_OUTPUT ≠ 0) := fun h2 =>
      hm ((mode_bit_iff s.mode_value_).1 h2)
    simp only [read_inputs_, h, hm, if_neg hm2, read_reg_snd, read_reg_fst,
      status_clear_warning]
    simp [CH423_REG_IN]

theorem read_inputs_warning (h : s.failed = false) :
    (read_inputs_ W T s).2.warning = false := by
  simp [read_inputs_, h, status_clear_warning]

end ReadInputsValue

/-! ## The output cache under `digital_write` -/

section WriteBits
variable (W : Widths) (T : I2CBus β) (p : Nat) (v : Bool) (s : CH423Component β)

theorem digital_write_testBit (q : Nat) (hp : p < 16) (hW : 16 ≤ W.output)
    (hW2 : W.output ≤ 32) (ho : s.output_bits_ < 2 ^ W.output) :
    (digital_write W T p v s).output_bits_.testBit q =
      if q = p then v else s.output_bits_.testBit q := by
  rw [digital_write_output]
  cases v
  · simp only [Bool.false_eq_true, if_false]
    rw [testBit_clear_bit_mod _ _ _ _ ho hW2 (by omega)]
    by_cases hq : q = p
    · subst hq; simp
    · have : ¬ p = q := fun h => hq h.symm
      simp [hq, this]
  · simp only [if_true]
    rw [testBit_set_bit_mod _ _ _ _ ho (by omega)]
    by_cases hq : q = p
    · subst hq; simp
    · have : ¬ p = q := fun h => hq h.symm
      simp [hq, this]

theorem digital_write_output_lt (hW : 0 < 2 ^ W.output) :
    (digital_write W T p v s).output_bits_ < 2 ^ W.output := by
  rw [digital_write_output]
  split_ifs <;> exact Nat.mod_lt _ hW

/-- Writing the same value to the same pin again does not change the output cache. -/
theorem digital_write_output_idem (T2 : I2CBus β) (hp : p < 16) (hW : 16 ≤ W.output)
    (hW2 : W.output ≤ 32) (ho : s.output_bits_ < 2 ^ W.output) :
    (digital_write W T2 p v (digital_write W T p v s)).output_bits_ =
      (digital_write W T p v s).output_bits_ := by
  apply Nat.eq_of_testBit_eq
  intro q
  rw [digital_write_testBit W T2 p v _ q hp hW hW2
    (digital_write_output_lt W T p v s (Nat.two_pow_pos _)),
    digital_write_testBit W T p v s q hp hW hW2 ho]
  by_cases hq : q = p <;> simp [hq]

end WriteBits

/-! ## The log of `setup` -/

section SetupLog
variable (W : Widths) (T : I2CBus β) (s : CH423Component β)

theorem read_inputs_trace_ext : ∃ l, (read_inputs_ W T s).2.trace = s.trace ++ l := by
  by_cases hf : s.failed = true
  · exact ⟨[], by rw [read_inputs_of_failed W T s hf]; simp⟩
  · have hf2 : s.failed = false := by simpa using hf
    exact ⟨_, read_inputs_trace W T s hf2⟩

/-- Whatever the bus does, `setup` writes the mode byte to MODE right after its output
writes. -/
theorem setup_trace_ext :
    ∃ l, (setup W T s).trace =
      (write_outputs_ T s).2.trace ++ [Txn.write CH423_REG_MODE (s.mode_value_ % 256)] ++ l := by
  have hw : (write_reg_ T CH423_REG_MODE (write_outputs_ T s).2.mode_value_
      (write_outputs_ T s).2).2.trace =
      (write_outputs_ T s).2.trace ++ [Txn.write CH423_REG_MODE (s.mode_value_ % 256)] := by
    rw [write_reg_snd, write_outputs_mode]
    simp [CH423_REG_MODE]
  obtain ⟨l, hl⟩ := read_inputs_trace_ext W T
    (write_reg_ T CH423_REG_MODE (write_outputs_ T s).2.mode_value_ (write_outputs_ T s).2).2
  simp only [setup, set_mode_]
  split_ifs
  · exact ⟨l, by rw [hl, hw]⟩
  · exact ⟨l, by simp only [mark_failed]; rw [hl, hw]⟩
  · exact ⟨[], by simp only [mark_failed]; rw [hw]; simp⟩

/-- The log of `setup`, for every bus and state, after the log of its `write_outputs_`: the
mode write, then (when that write succeeded on a non-failed controller) what `read_inputs_`
adds. -/
theorem setup_trace :
    (setup W T s).trace =
      (write_outputs_ T s).2.trace ++ [Txn.write CH423_REG_MODE (s.mode_value_ % 256)] ++
      (if (T.write (write_outputs_ T s).2.bus CH423_REG_MODE (s.mode_value_ % 256)).1
          ≠ ERROR_OK ∨ s.failed = true then []
        else if s.mode_value_.testBit 0 = true then
          [Txn.write CH423_REG_MODE ((s.mode_value_ &&& bitNot CH423_MODE_OUTPUT) % 256),
           Txn.read CH423_REG_IN,
           Txn.write CH423_REG_MODE (s.mode_value_ % 256)]
        else [Txn.read CH423_REG_IN]) := by
  have hreg : CH423_REG_MODE % 256 = CH423_REG_MODE := by decide
  have hw : (write_reg_ T CH423_REG_MODE (write_outputs_ T s).2.mode_value_
      (write_outputs_ T s).2).2.trace =
      (write_outputs_ T s).2.trace ++ [Txn.write CH423_REG_MODE (s.mode_value_ % 256)] := by
    rw [write_reg_snd, write_outputs_mode, hreg]
  have hfl : (write_reg_ T CH423_REG_MODE (write_outputs_ T s).2.mode_value_
      (write_outputs_ T s).2).2.failed = s.failed := by
    rw [write_reg_snd]; exact write_outputs_failed T s
  have hmd : (write_reg_ T CH423_REG_MODE (write_outputs_ T s).2.mode_value_
      (write_outputs_ T s).2).2.mode_value_ = s.mode_value_ := by
    rw [write_reg_snd]; exact write_outputs_mode T s
  have h1 : (write_reg_ T CH423_REG_MODE (write_outputs_ T s).2.mode_value_
      (write_outputs_ T s).2).1 =
      decide ((T.write (write_outputs_ T s).2.bus CH423_REG_MODE (s.mode_value_ % 256)).1
        = ERROR_OK) := by
    rw [write_reg_fst, write_outputs_mode, hreg]
  by_cases he : (T.write (write_outputs_ T s).2.bus CH423_REG_MODE (s.mode_value_ % 256)).1
      = ERROR_OK
  · by_cases hf : s.failed = true
    · have hf2 := hfl.trans hf
      simp only [setup, set_mode_, h1, he, decide_True, if_true,
        read_inputs_of_failed W T _ hf2, Bool.false_eq_true, if_false, mark_failed, hw, hf,
        ne_eq, not_true_eq_false, or_true, List.append_nil]
    · have hf3 : s.failed = false := by simpa using hf
      have hf2 := hfl.trans hf3
      simp only [setup, set_mode_, h1, he, decide_True, if_true, read_inputs_fst W T _ hf2,
        read_inputs_trace W T _ hf2, hw, hmd, hf3, ne_eq, not_true_eq_false,
        Bool.false_eq_true, or_self, if_false]
  · simp only [setup, set_mode_, h1, he, decide_False, Bool.false_eq_true, if_false,
      mark_failed, hw, ne_eq, not_false_eq_true, true_or, if_true, List.append_nil]

end SetupLog

/-! ## Buses that never fail -/

section OkBus
variable (W : Widths) (T : I2CBus β) (s : CH423Component β)

/-- With every write succeeding, `write_outputs_` issues its three writes in a row. -/
theorem write_outputs_snd_ok (hw : ∀ b reg v, (T.write b reg v).1 = ERROR_OK) :
    (write_outputs_ T s).2 =
      { s with
        bus := (T.write (T.write (T.write s.bus CH423_REG_OUT (s.output_bits_ % 256)).2
          CH423_REG_OUT_UPPER_l (s.output_bits_ >>> 8 % 256)).2
          CH423_REG_OUT_UPPER (s.output_bits_ >>> 16 % 256)).2
        trace := s.trace ++
          [Txn.write CH423_REG_OUT (s.output_bits_ % 256),
           Txn.write CH423_REG_OUT_UPPER_l (s.output_bits_ >>> 8 % 256),
           Txn.write CH423_REG_OUT_UPPER (s.output_bits_ >>> 16 % 256)]
        warning := false } := by
  simp only [write_outputs_, write_reg_fst, write_reg_snd, hw, decide_True, if_true]
  simp [CH423_REG_OUT, CH423_REG_OUT_UPPER_l, CH423_REG_OUT_UPPER]

theorem echoBus_write_ok : ∀ (b reg v : Nat), (echoBus.write b reg v).1 = ERROR_OK :=
  fun _ _ _ => rfl

/-- On the echoing bus, `write_outputs_` leaves the low byte of the output cache as the byte
that the next read of the input register delivers. -/
theorem write_outputs_echo_bus (t : CH423Component Nat) :
    (write_outputs_ echoBus t).2.bus = t.output_bits_ % 256 := by
  rw [write_outputs_snd_ok echoBus t echoBus_write_ok]
  simp [echoBus, CH423_REG_OUT, CH423_REG_OUT_UPPER_l, CH423_REG_OUT_UPPER]

end OkBus

/-! ## Claims C11 to C18 -/

/-- C11: cache coherence on the echoing bus (every transaction succeeds, a read of INPUT 0x26
delivers the last byte written to OUTPUT_LOW 0x38). On a non-failed controller whose input and
output caches hold at least 8 bits, for every pin below 8 and every value: configuring the pin
as OUTPUT, writing the value, then `loop` and `digital_read` of the pin returns the value. -/
theorem C11_cache_coherence (W : Widths) (s0 : CH423Component Nat) (p : Nat) (v : Bool)
    (hp : p < 8) (hI : 8 ≤ W.input) (hO : 8 ≤ W.output) (hf : s0.failed = false) :
    (digital_read W echoBus p
      (loop (digital_write W echoBus p v (pin_mode p FLAG_OUTPUT s0)))).1 = v := by
  have hfail : (loop (digital_write W echoBus p v (pin_mode p FLAG_OUTPUT s0))).failed
      = false := by
    show (digital_write W echoBus p v _).failed = false
    rw [digital_write_failed, pin_mode_failed]; exact hf
  have hbus : (loop (digital_write W echoBus p v (pin_mode p FLAG_OUTPUT s0))).bus =
      (digital_write W echoBus p v (pin_mode p FLAG_OUTPUT s0)).output_bits_ % 256 := by
    show (digital_write W echoBus p v _).bus = _
    rw [digital_write_output]
    cases v
    · simp only [digital_write, Bool.false_eq_true, if_false]
      exact write_outputs_echo_bus _
    · simp only [digital_write, if_true]
      exact write_outputs_echo_bus _
  have hbit : (digital_write W echoBus p v (pin_mode p FLAG_OUTPUT s0)).output_bits_.testBit p
      = v := by
    rw [digital_write_output]
    cases v
    · simp only [Bool.false_eq_true, if_false]
      exact testBit_clear_bit_self _ _ _ (by omega)
    · simp only [if_true]
      exact testBit_set_bit_self _ _ _ (by omega)
  have hz : (loop (digital_write W echoBus p v (pin_mode p FLAG_OUTPUT s0))).pin_read_flags_
      = 0 := rfl
  have h256 : (256 : Nat) = 2 ^ 8 := rfl
  rw [digital_read_fst, digital_read_refresh W echoBus p _ (Or.inl hz)]
  show (read_inputs_ W echoBus _).2.input_bits_.testBit p = v
  rw [read_inputs_input W echoBus _ hfail]
  have hread : ∀ b : Nat, (echoBus.read b CH423_REG_IN) = (ERROR_OK, b, b) := fun b => by
    simp [echoBus]
  have hwr : ∀ (b x : Nat), (echoBus.write b CH423_REG_MODE x).2 = b := fun b x => by
    simp [echoBus, CH423_REG_MODE, CH423_REG_OUT]
  simp only [hread, hwr, ite_self, if_true, hbus]
  rw [Nat.testBit_mod_two_pow, h256, Nat.testBit_mod_two_pow, Nat.testBit_mod_two_pow, hbit]
  have h1 : p < W.input := by omega
  simp [h1, hp]

/-- C11, at a concrete input: pin 5 written true on a fresh controller over the echoing bus. -/
theorem C11_cache_coherence_witness :
    ((5 : Nat) < 8 ∧ 8 ≤ W0.input ∧ 8 ≤ W0.output ∧ freshEcho.failed = false) ∧
    (digital_read W0 echoBus 5
      (loop (digital_write W0 echoBus 5 true (pin_mode 5 FLAG_OUTPUT freshEcho)))).1 = true :=
  ⟨⟨by decide, by decide, by decide, rfl⟩,
    C11_cache_coherence W0 freshEcho 5 true (by decide) (by decide) (by decide) rfl⟩

/-- C12: pin adapter inversion. For every adapter (pin index, inversion flag), bus and
controller: `digital_read` returns the controller's `digital_read` of the pin XOR the inversion
flag and leaves the controller as that call does; `digital_write` of a value is the
controller's `digital_write` of the pin with the value XOR the inversion flag. Hence, for a pin
below 16 held by the output cache, writing true through an inverted adapter clears the pin's
bit of the output cache and through a non-inverted one sets it. -/
theorem C12_pin_adapter_inversion (W : Widths) (T : I2CBus β) (g : CH423GPIOPin)
    (s : CH423Component β) (value : Bool) (hp : g.pin_ < 16) (hW : 16 ≤ W.output) :
    (g.digital_read W T s).1 = xor (digital_read W T g.pin_ s).1 g.inverted_ ∧
    (g.digital_read W T s).2 = (digital_read W T g.pin_ s).2 ∧
    g.digital_write W T value s = digital_write W T g.pin_ (xor value g.inverted_) s ∧
    (g.inverted_ = true →
      (g.digital_write W T true s).output_bits_.testBit g.pin_ = false) ∧
    (g.inverted_ = false →
      (g.digital_write W T true s).output_bits_.testBit g.pin_ = true) := by
  refine ⟨rfl, rfl, rfl, ?_, ?_⟩
  · intro hi
    simp only [CH423GPIOPin.digital_write, hi, Bool.xor_self]
    rw [digital_write_output]
    simp only [Bool.false_eq_true, if_false]
    exact testBit_clear_bit_self _ _ _ (by omega)
  · intro hi
    simp only [CH423GPIOPin.digital_write, hi, Bool.xor_false]
    rw [digital_write_output]
    simp only [if_true]
    exact testBit_set_bit_self _ _ _ (by omega)

/-- C12, at a concrete input: an inverted adapter on pin 3 writes false and reads pin 3 of a
fresh controller over a bus delivering 8. -/
theorem C12_pin_adapter_inversion_witness :
    ((3 : Nat) < 16 ∧ 16 ≤ W0.output) ∧
    (CH423GPIOPin.digital_read W0 (okBus 8) ⟨3, true, 0⟩ fresh).1 =
      xor (digital_read W0 (okBus 8) 3 fresh).1 true ∧
    (CH423GPIOPin.digital_read W0 (okBus 8) ⟨3, true, 0⟩ fresh).2 =
      (digital_read W0 (okBus 8) 3 fresh).2 ∧
    CH423GPIOPin.digital_write W0 (okBus 8) ⟨3, true, 0⟩ false fresh =
      digital_write W0 (okBus 8) 3 (xor false true) fresh ∧
    (true = true →
      (CH423GPIOPin.digital_write W0 (okBus 8) ⟨3, true, 0⟩ true fresh).output_bits_.testBit 3
        = false) ∧
    (true = false →
      (CH423GPIOPin.digital_write W0 (okBus 8) ⟨3, true, 0⟩ true fresh).output_bits_.testBit 3
        = true) :=
  ⟨⟨by decide, by decide⟩,
    C12_pin_adapter_inversion W0 (okBus 8) ⟨3, true, 0⟩ fresh false (by decide) (by decide)⟩

/-- C13: `loop` (begin_cycle), from every state, empties the read flags and changes nothing
else: mode byte, output cache, input cache, failed flag, the bus and its log stay as they were.
Consequently, on a non-failed controller, the first `digital_read` after `loop` runs
`read_inputs_`, whatever the pin: the controller is the one `read_inputs_` leaves, up to the
read flags, and one input-register read has been added to the log. -/
theorem C13_loop_clears_flags (W : Widths) (T : I2CBus β) (p : Nat) (s : CH423Component β) :
    loop s = { s with pin_read_flags_ := 0 } ∧
    (loop s).trace = s.trace ∧ (loop s).bus = s.bus ∧
    (s.failed = false →
      (digital_read W T p (loop s)).2 =
        { (read_inputs_ W T (loop s)).2 with
          pin_read_flags_ := (digital_read W T p (loop s)).2.pin_read_flags_ } ∧
      inputReads (digital_read W T p (loop s)).2.trace = inputReads s.trace + 1) := by
  refine ⟨rfl, rfl, rfl, ?_⟩
  intro hf
  have hz : (loop s).pin_read_flags_ = 0 ∨ (loop s).pin_read_flags_.testBit p = true :=
    Or.inl rfl
  constructor
  · rw [digital_read_flags, digital_read_refresh W T p (loop s) hz]
  · rw [digital_read_refresh W T p (loop s) hz]
    exact read_inputs_inputReads W T (loop s) hf

/-- C13, at a concrete input: a cycle begins on the scenario controller and pin 1 is read. -/
theorem C13_loop_clears_flags_witness :
    scenario.failed = false ∧
    inputReads (digital_read W0 (okBus 0) 1 (loop scenario)).2.trace =
      inputReads scenario.trace + 1 :=
  ⟨by decide, ((C13_loop_clears_flags W0 (okBus 0) 1 scenario).2.2.2 (by decide)).2⟩

/-- C14 (as amended): `pin_mode` (configure_pin) only updates the mode byte (8 bits): for every
pin, flag set and state it changes no other field and leaves the bus and its log untouched,
also when it changes the mode byte. The mode byte reaches the MODE register (0x24) in `setup`:
for every bus, the log of `setup` after `pin_mode` is the output writes (0x38, 0x22, 0x23, up
to the first that fails), then the write of the new mode byte to MODE, then, when that write
succeeded on a non-failed controller, the input read, bracketed by the clear and restore
writes of MODE when the output-enable bit is set. And `read_inputs_` after `pin_mode`, on a
non-failed controller with the output-enable bit set, ends with the restore write of the new
mode byte to MODE and leaves the mode byte as it is. -/
theorem C14_pin_mode_no_bus_write (W : Widths) (T : I2CBus β) (p flags : Nat)
    (s : CH423Component β) (hm : s.mode_value_ < 256) :
    let t := pin_mode p flags s
    let lo := Txn.write CH423_REG_OUT (t.output_bits_ % 256)
    let mid := Txn.write CH423_REG_OUT_UPPER_l (t.output_bits_ >>> 8 % 256)
    let hi := Txn.write CH423_REG_OUT_UPPER (t.output_bits_ >>> 16 % 256)
    let r1 := T.write t.bus CH423_REG_OUT (t.output_bits_ % 256)
    let r2 := T.write r1.2 CH423_REG_OUT_UPPER_l (t.output_bits_ >>> 8 % 256)
    let r4 := T.write (write_outputs_ T t).2.bus CH423_REG_MODE t.mode_value_
    t = { s with mode_value_ := t.mode_value_ } ∧ t.trace = s.trace ∧ t.bus = s.bus ∧
    (setup W T t).trace = t.trace ++
      (if r1.1 ≠ ERROR_OK then [lo] else if r2.1 ≠ ERROR_OK then [lo, mid]
        else [lo, mid, hi]) ++
      [Txn.write CH423_REG_MODE t.mode_value_] ++
      (if r4.1 ≠ ERROR_OK ∨ t.failed = true then []
        else if t.mode_value_.testBit 0 = true then
          [Txn.write CH423_REG_MODE (t.mode_value_ - 1), Txn.read CH423_REG_IN,
           Txn.write CH423_REG_MODE t.mode_value_]
        else [Txn.read CH423_REG_IN]) ∧
    (t.failed = false → t.mode_value_.testBit 0 = true →
      (read_inputs_ W T t).2.trace = t.trace ++
        [Txn.write CH423_REG_MODE (t.mode_value_ - 1), Txn.read CH423_REG_IN,
         Txn.write CH423_REG_MODE t.mode_value_] ∧
      (read_inputs_ W T t).2.mode_value_ = t.mode_value_) := by
  intro t lo mid hi r1 r2 r4
  have hlt : t.mode_value_ < 256 := by
    rcases pin_mode_mode_lt p flags s with h | h
    · exact h
    · rw [h]; exact hm
  have hmod : t.mode_value_ % 256 = t.mode_value_ := Nat.mod_eq_of_lt hlt
  have h1 : t = { s with mode_value_ := t.mode_value_ } := by
    show pin_mode p flags s = { s with mode_value_ := (pin_mode p flags s).mode_value_ }
    simp only [pin_mode]; split_ifs <;> rfl
  refine ⟨h1, by rw [h1], by rw [h1], ?_, ?_⟩
  · rw [setup_trace W T t, write_outputs_trace T t, hmod]
    by_cases h0 : t.mode_value_.testBit 0 = true
    · simp only [h0, if_true, clear_mode_output _ hlt h0, hmod]
    · have h0f : t.mode_value_.testBit 0 = false := by simpa using h0
      simp only [h0f, Bool.false_eq_true, if_false]
  · intro hf h0
    refine ⟨?_, read_inputs_mode W T t⟩
    rw [read_inputs_trace W T t hf, if_pos h0, clear_mode_output _ hlt h0, hmod]

/-- C14, at a concrete input: OUTPUT configured on pin 0 of a fresh controller, then `setup`
on a bus that always succeeds. -/
theorem C14_pin_mode_no_bus_write_witness :
    fresh.mode_value_ < 256 ∧
    (pin_mode 0 FLAG_OUTPUT fresh).trace = fresh.trace ∧
    (setup W0 (okBus 0) (pin_mode 0 FLAG_OUTPUT fresh)).trace =
      [Txn.write CH423_REG_OUT 0, Txn.write CH423_REG_OUT_UPPER_l 0,
       Txn.write CH423_REG_OUT_UPPER 0, Txn.write CH423_REG_MODE 1,
       Txn.write CH423_REG_MODE 0, Txn.read CH423_REG_IN, Txn.write CH423_REG_MODE 1] :=
  ⟨by decide,
    (C14_pin_mode_no_bus_write W0 (okBus 0) 0 FLAG_OUTPUT fresh (by decide)).2.1,
    (C14_pin_mode_no_bus_write W0 (okBus 0) 0 FLAG_OUTPUT fresh (by decide)).2.2.2.1⟩

/-- C14 as stated fails: configuring pin 0 as OUTPUT on a fresh controller changes the mode
byte from 0 to 1 and puts nothing on the bus. -/
theorem C14_counterexample :
    fresh.mode_value_ = 0 ∧ (pin_mode 0 FLAG_OUTPUT fresh).mode_value_ = 1 ∧
    (pin_mode 0 FLAG_OUTPUT fresh).trace = fresh.trace ∧
    Txn.write CH423_REG_MODE 1 ∉ (pin_mode 0 FLAG_OUTPUT fresh).trace ∧
    (CH423GPIOPin.set_flags ⟨0, false, 0⟩ FLAG_OUTPUT fresh).2.trace = fresh.trace := by
  decide

/-- C15 fails on the code: on a non-failed controller in input mode, with the read of the input
register reporting a transport error as the only transaction, `read_reg_` sets the warning but
`read_inputs_` returns with the warning cleared. The input cache is 0 and a `digital_read`
served from it returns false, as claimed. -/
theorem C15_warning_cleared_after_failed_read :
    fresh.failed = false ∧ fresh.mode_value_.testBit 0 = false ∧
    (readFailBus.read fresh.bus CH423_REG_IN).1 ≠ ERROR_OK ∧
    (read_reg_ readFailBus CH423_REG_IN fresh).2.warning = true ∧
    (read_inputs_ W0 readFailBus fresh).2.trace = [Txn.read CH423_REG_IN] ∧
    (read_inputs_ W0 readFailBus fresh).2.warning = false ∧
    (read_inputs_ W0 readFailBus fresh).2.input_bits_ = 0 ∧
    (digital_read W0 readFailBus 0 fresh).1 = false := by
  decide

/-- C16: order of `setup` (initialize) on a bus that never reports an error, from a non-failed
controller (mode byte within 8 bits, input cache of at least 8 bits). The log gains, in this
order: the three output writes 0x38, 0x22, 0x23 with the low, middle and high byte of the
output cache; the write of the mode byte to MODE (0x24); the read of INPUT (0x26), bracketed by
the clear and restore writes of MODE when the output-enable bit is set. The input cache ends up
equal to the byte that read delivered, and the controller is not failed. -/
theorem C16_setup_order (W : Widths) (T : I2CBus β) (s : CH423Component β)
    (hw : ∀ b reg v, (T.write b reg v).1 = ERROR_OK)
    (hr : ∀ b reg, (T.read b reg).1 = ERROR_OK)
    (hf : s.failed = false) (hm : s.mode_value_ < 256) (hI : 8 ≤ W.input) :
    let lo := Txn.write CH423_REG_OUT (s.output_bits_ % 256)
    let mid := Txn.write CH423_REG_OUT_UPPER_l (s.output_bits_ >>> 8 % 256)
    let hi := Txn.write CH423_REG_OUT_UPPER (s.output_bits_ >>> 16 % 256)
    let b3 := (T.write (T.write (T.write s.bus CH423_REG_OUT (s.output_bits_ % 256)).2
      CH423_REG_OUT_UPPER_l (s.output_bits_ >>> 8 % 256)).2
      CH423_REG_OUT_UPPER (s.output_bits_ >>> 16 % 256)).2
    let b4 := (T.write b3 CH423_REG_MODE s.mode_value_).2
    let b5 := if s.mode_value_.testBit 0 = true then
      (T.write b4 CH423_REG_MODE (s.mode_value_ - 1)).2 else b4
    (setup W T s).trace = s.trace ++ [lo, mid, hi, Txn.write CH423_REG_MODE s.mode_value_] ++
      (if s.mode_value_.testBit 0 = true then
        [Txn.write CH423_REG_MODE (s.mode_value_ - 1), Txn.read CH423_REG_IN,
         Txn.write CH423_REG_MODE s.mode_value_]
      else [Txn.read CH423_REG_IN]) ∧
    (setup W T s).input_bits_ = (T.read b5 CH423_REG_IN).2.1 % 256 ∧
    (setup W T s).failed = false := by
  intro lo mid hi b3 b4 b5
  have hmod : s.mode_value_ % 256 = s.mode_value_ := Nat.mod_eq_of_lt hm
  have hreg : CH423_REG_MODE % 256 = CH423_REG_MODE := by decide
  have h2 : (write_reg_ T CH423_REG_MODE (write_outputs_ T s).2.mode_value_
      (write_outputs_ T s).2).2 =
      { s with
        bus := b4
        trace := s.trace ++ [lo, mid, hi, Txn.write CH423_REG_MODE s.mode_value_]
        warning := false } := by
    rw [write_reg_snd, write_outputs_snd_ok T s hw]
    simp [hw, hmod, hreg, b4, b3, lo, mid, hi]
  have h1 : (write_reg_ T CH423_REG_MODE (write_outputs_ T s).2.mode_value_
      (write_outputs_ T s).2).1 = true := by
    rw [write_reg_fst]; simp [hw]
  have hf2 : (write_reg_ T CH423_REG_MODE (write_outputs_ T s).2.mode_value_
      (write_outputs_ T s).2).2.failed = false := by
    rw [h2]; exact hf
  have hsetup : setup W T s = (read_inputs_ W T (write_reg_ T CH423_REG_MODE
      (write_outputs_ T s).2.mode_value_ (write_outputs_ T s).2).2).2 := by
    simp only [setup, set_mode_, h1, if_true, read_inputs_fst W T _ hf2]
  rw [hsetup]
  refine ⟨?_, ?_, ?_⟩
  · rw [read_inputs_trace W T _ hf2, h2]
    by_cases h0 : s.mode_value_.testBit 0 = true
    · simp only [h0, if_true, clear_mode_output _ hm h0, hmod]
    · have h0f : s.mode_value_.testBit 0 = false := by simpa using h0
      simp [h0f]
  · rw [read_inputs_input W T _ hf2, h2]
    have hlt : ∀ x : Nat, x % 256 % 2 ^ W.input = x % 256 := fun x =>
      Nat.mod_eq_of_lt (Nat.lt_of_lt_of_le (Nat.mod_lt x (by decide))
        (Nat.pow_le_pow_right (by decide) hI : 2 ^ 8 ≤ 2 ^ W.input))
    by_cases h0 : s.mode_value_.testBit 0 = true
    · simp only [h0, if_true, hr, clear_mode_output _ hm h0, hlt, b5]
    · simp only [h0, if_false, hr, if_true, hlt, b5]
      simp
  · rw [read_inputs_failed]; exact hf2

/-- C16, at a concrete input: `setup` of the scenario controller (output-enable bit set) on a
bus that always succeeds and delivers 5. -/
theorem C16_setup_order_witness :
    ((∀ b reg v, ((okBus 5).write b reg v).1 = ERROR_OK) ∧
      (∀ b reg, ((okBus 5).read b reg).1 = ERROR_OK) ∧
      scenario.failed = false ∧ scenario.mode_value_ < 256 ∧ 8 ≤ W0.input) ∧
    (setup W0 (okBus 5) scenario).trace = scenario.trace ++
      [Txn.write CH423_REG_OUT 1, Txn.write CH423_REG_OUT_UPPER_l 0,
       Txn.write CH423_REG_OUT_UPPER 0, Txn.write CH423_REG_MODE 5,
       Txn.write CH423_REG_MODE 4, Txn.read CH423_REG_IN, Txn.write CH423_REG_MODE 5] ∧
    (setup W0 (okBus 5) scenario).input_bits_ = 5 ∧
    (setup W0 (okBus 5) scenario).failed = false :=
  ⟨⟨fun _ _ _ => rfl, fun _ _ => rfl, by decide, by decide, by decide⟩,
    C16_setup_order W0 (okBus 5) scenario (fun _ _ _ => rfl) (fun _ _ => rfl) (by decide)
      (by decide) (by decide)⟩

/-- C17: single-transaction wrappers, for every bus, state, register and value (both taken as
bytes). `write_reg_` adds exactly one write to the log; it returns true exactly when the bus
reports success, and then leaves the warning cleared, otherwise it returns false and leaves the
warning set. `read_reg_` adds exactly one read to the log; when the bus reports success it
returns the byte delivered and leaves the warning cleared, otherwise it returns 0 and leaves
the warning set. Neither changes the failed flag. -/
theorem C17_single_transaction_wrappers (T : I2CBus β) (s : CH423Component β)
    (reg value : Nat) :
    (write_reg_ T reg value s).2.trace = s.trace ++ [Txn.write (reg % 256) (value % 256)] ∧
    ((write_reg_ T reg value s).1 = true ↔
      (T.write s.bus (reg % 256) (value % 256)).1 = ERROR_OK) ∧
    ((write_reg_ T reg value s).1 = true → (write_reg_ T reg value s).2.warning = false) ∧
    ((write_reg_ T reg value s).1 = false → (write_reg_ T reg value s).2.warning = true) ∧
    (write_reg_ T reg value s).2.failed = s.failed ∧
    (read_reg_ T reg s).2.trace = s.trace ++ [Txn.read (reg % 256)] ∧
    ((T.read s.bus (reg % 256)).1 = ERROR_OK →
      (read_reg_ T reg s).1 = (T.read s.bus (reg % 256)).2.1 % 256 ∧
      (read_reg_ T reg s).2.warning = false) ∧
    ((T.read s.bus (reg % 256)).1 ≠ ERROR_OK →
      (read_reg_ T reg s).1 = 0 ∧ (read_reg_ T reg s).2.warning = true) ∧
    (read_reg_ T reg s).2.failed = s.failed := by
  refine ⟨by rw [write_reg_snd], ?_, ?_, ?_, by rw [write_reg_snd], by rw [read_reg_snd],
    ?_, ?_, by rw [read_reg_snd]⟩
  · rw [write_reg_fst]; simp
  · intro h
    rw [write_reg_fst] at h
    rw [write_reg_snd]
    simpa using h
  · intro h
    rw [write_reg_fst] at h
    rw [write_reg_snd]
    simpa using h
  · intro h
    rw [read_reg_fst, read_reg_snd]
    simp [h]
  · intro h
    rw [read_reg_fst, read_reg_snd]
    simp [h]

/-- C17, at a concrete input: a write of 5 to OUTPUT_LOW that fails, and a read of INPUT that
succeeds and delivers 7. -/
theorem C17_single_transaction_wrappers_witness :
    (write_reg_ writeFailBus CH423_REG_OUT 5 fresh).1 = false ∧
    (write_reg_ writeFailBus CH423_REG_OUT 5 fresh).2.warning = true ∧
    ((okBus 7).read fresh.bus (CH423_REG_IN % 256)).1 = ERROR_OK ∧
    (read_reg_ (okBus 7) CH423_REG_IN fresh).1 = 7 ∧
    (read_reg_ (okBus 7) CH423_REG_IN fresh).2.warning = false :=
  ⟨by decide,
    (C17_single_transaction_wrappers writeFailBus fresh CH423_REG_OUT 5).2.2.2.1 (by decide),
    by decide,
    ((C17_single_transaction_wrappers (okBus 7) fresh CH423_REG_IN 0).2.2.2.2.2.2.1
      (by decide)).1,
    ((C17_single_transaction_wrappers (okBus 7) fresh CH423_REG_IN 0).2.2.2.2.2.2.1
      (by decide)).2⟩

/-- C18: `digital_write` (write_pin) frame and idempotence. For every bus, every pin below 16,
every value and every state whose output cache is within its field (16 to 32 bits wide): after
the call the pin's bit of the output cache equals the value and every other bit is as before;
mode byte, input cache, read flags and failed flag are unchanged; and a second call with the
same pin and value (on any bus) leaves all five of these as the first call left them. -/
theorem C18_digital_write_frame (W : Widths) (T T2 : I2CBus β) (p : Nat) (v : Bool)
    (s : CH423Component β) (hp : p < 16) (hW : 16 ≤ W.output) (hW2 : W.output ≤ 32)
    (ho : s.output_bits_ < 2 ^ W.output) :
    (digital_write W T p v s).output_bits_.testBit p = v ∧
    (∀ q, q ≠ p →
      (digital_write W T p v s).output_bits_.testBit q = s.output_bits_.testBit q) ∧
    (digital_write W T p v s).mode_value_ = s.mode_value_ ∧
    (digital_write W T p v s).input_bits_ = s.input_bits_ ∧
    (digital_write W T p v s).pin_read_flags_ = s.pin_read_flags_ ∧
    (digital_write W T p v s).failed = s.failed ∧
    (digital_write W T2 p v (digital_write W T p v s)).output_bits_ =
      (digital_write W T p v s).output_bits_ ∧
    (digital_write W T2 p v (digital_write W T p v s)).mode_value_ =
      (digital_write W T p v s).mode_value_ ∧
    (digital_write W T2 p v (digital_write W T p v s)).input_bits_ =
      (digital_write W T p v s).input_bits_ ∧
    (digital_write W T2 p v (digital_write W T p v s)).pin_read_flags_ =
      (digital_write W T p v s).pin_read_flags_ ∧
    (digital_write W T2 p v (digital_write W T p v s)).failed =
      (digital_write W T p v s).failed := by
  refine ⟨?_, ?_, digital_write_mode W T p v s, digital_write_input W T p v s,
    digital_write_flags W T p v s, digital_write_failed W T p v s,
    digital_write_output_idem W T p v s T2 hp hW hW2 ho, digital_write_mode W T2 p v _,
    digital_write_input W T2 p v _, digital_write_flags W T2 p v _,
    digital_write_failed W T2 p v _⟩
  · rw [digital_write_testBit W T p v s p hp hW hW2 ho]; simp
  · intro q hq
    rw [digital_write_testBit W T p v s q hp hW hW2 ho]; simp [hq]

/-- C18, at a concrete input: pin 9 written true twice on the scenario controller, the second
time on a bus whose writes fail. -/
theorem C18_digital_write_frame_witness :
    ((9 : Nat) < 16 ∧ 16 ≤ W0.output ∧ W0.output ≤ 32 ∧
      scenario.output_bits_ < 2 ^ W0.output) ∧
    (digital_write W0 (okBus 0) 9 true scenario).output_bits_.testBit 9 = true ∧
    (digital_write W0 writeFailBus 9 true
      (digital_write W0 (okBus 0) 9 true scenario)).output_bits_ =
      (digital_write W0 (okBus 0) 9 true scenario).output_bits_ :=
  ⟨⟨by decide, by decide, by decide, by decide⟩,
    (C18_digital_write_frame W0 (okBus 0) writeFailBus 9 true scenario (by decide) (by decide)
      (by decide) (by decide)).1,
    (C18_digital_write_frame W0 (okBus 0) writeFailBus 9 true scenario (by decide) (by decide)
      (by decide) (by decide)).2.2.2.2.2.2.1⟩

end CH423
